import Mathlib

/-!
# Recipe_App backend — formal model and verification

Shallow embedding of `python_backend/recipe_generator.py` and
`python_backend/app.py` (Flask + pydantic boundary), together with proofs
about the response-parsing pipeline, prompt construction, request
validation, and the HTTP error mapping.

Strings are modelled as `List Char` (Python `str` is a sequence of code
points, as is `List Char` here).  JSON values are modelled by the mutually
inductive type `Json`; `json.loads` is modelled by the executable
recursive-descent parser `json_loads` below, and the serialised form used
by the round-trip property is produced by `serJson` (the compact form of
`json.dumps` with `ensure_ascii=False`; key order preserved, which is the
behaviour of Python dicts).
-/

/-- Conversion from a Lean string literal to the `List Char` representation
used throughout the model. -/
def cs (s : String) : List Char := s.data

/-- Whitespace for the Python `str.strip()` method and the regex class `\s`
(ASCII part: space, tab, newline, carriage return, vertical tab, form feed;
the additional Unicode whitespace code points are not exercised here). -/
def pySpace (c : Char) : Bool :=
  c = ' ' || c = '\t' || c = '\n' || c = '\r' || c = '\x0b' || c = '\x0c'

/-- Whitespace accepted between JSON tokens by `json.loads`
(space, tab, newline, carriage return). -/
def jsonWs (c : Char) : Bool :=
  c = ' ' || c = '\t' || c = '\n' || c = '\r'

/-- Decimal digit test. -/
def isDigitC (c : Char) : Bool := '0' ≤ c && c ≤ '9'

/-- Numeric value of a decimal digit character. -/
def digitVal (c : Char) : Nat := c.toNat - 48

/-- Hexadecimal digit character for a value below 16 (lowercase, as
produced by the `%04x` formatting used in `json.dumps` escapes). -/
def hexDigitChar : Nat → Char
  | 0 => '0' | 1 => '1' | 2 => '2' | 3 => '3' | 4 => '4'
  | 5 => '5' | 6 => '6' | 7 => '7' | 8 => '8' | 9 => '9'
  | 10 => 'a' | 11 => 'b' | 12 => 'c' | 13 => 'd' | 14 => 'e' | 15 => 'f'
  | _ => '?'

/-- Value of a hexadecimal digit character (either case), as accepted by
`\uXXXX` escapes in `json.loads`. -/
def hexVal (c : Char) : Option Nat :=
  let n := c.toNat
  if 48 ≤ n ∧ n ≤ 57 then some (n - 48)
  else if 97 ≤ n ∧ n ≤ 102 then some (n - 87)
  else if 65 ≤ n ∧ n ≤ 70 then some (n - 55)
  else none

mutual
/-- Model of a Python value produced by `json.loads` (and consumed by
`json.dumps`).  Numbers are exact decimals `m * 10 ^ e10` (`e10 = 0` for
integer tokens); `nan`/`inf` model the non-standard `NaN`, `Infinity` and
`-Infinity` literals that the Python `json` module accepts and emits. -/
inductive Json where
  | null
  | bool (b : Bool)
  | num (m : Int) (e10 : Int)
  | str (s : List Char)
  | arr (elems : JsonList)
  | obj (kvs : JsonPairs)
  | nan
  | inf (neg : Bool)
deriving DecidableEq
/-- List of JSON values (a Python list). -/
inductive JsonList where
  | nil
  | cons (hd : Json) (tl : JsonList)
deriving DecidableEq
/-- Ordered key/value pairs of a JSON object (a Python dict in insertion
order). -/
inductive JsonPairs where
  | nil
  | cons (key : List Char) (val : Json) (tl : JsonPairs)
deriving DecidableEq
end

/-- Append two pair sequences. -/
def pairsApp : JsonPairs → JsonPairs → JsonPairs
  | .nil, qs => qs
  | .cons k v t, qs => .cons k v (pairsApp t qs)

/-- Key membership in the pairs of an object (`key in somedict`). -/
def keyMem (k : List Char) : JsonPairs → Bool
  | .nil => false
  | .cons k' _ t => k' = k || keyMem k t

/-- Lookup of a key in the pairs of an object (`somedict[key]`). -/
def lookupPairs (k : List Char) : JsonPairs → Option Json
  | .nil => none
  | .cons k' v t => if k' = k then some v else lookupPairs k t

/-- Dict insertion `d[k] = v`: replace the value in place if the key is
present (keeping its original position), otherwise append. -/
def upsertPair (ps : JsonPairs) (k : List Char) (v : Json) : JsonPairs :=
  match ps with
  | .nil => .cons k v .nil
  | .cons k' v' t => if k' = k then .cons k' v t else .cons k' v' (upsertPair t k v)

/-- Fold a parsed pair sequence into a dict, later duplicates overriding
earlier ones in place (the semantics of `dict(pairs)`). -/
def dictifyAux (acc : JsonPairs) : JsonPairs → JsonPairs
  | .nil => acc
  | .cons k v t => dictifyAux (upsertPair acc k v) t

/-- Build a dict from parsed pairs. -/
def dictify (ps : JsonPairs) : JsonPairs := dictifyAux .nil ps

/-- Duplicate-free key check for one object level. -/
def keysNodup : JsonPairs → Bool
  | .nil => true
  | .cons k _ t => !keyMem k t && keysNodup t

mutual
/-- Well-formedness of a JSON value as the image of a Python object:
every object level has duplicate-free keys (Python dicts cannot hold
duplicate keys). -/
def wfJson : Json → Bool
  | .arr es => wfJsonList es
  | .obj ps => keysNodup ps && wfJsonPairs ps
  | _ => true
/-- Well-formedness of every element of a list. -/
def wfJsonList : JsonList → Bool
  | .nil => true
  | .cons v t => wfJson v && wfJsonList t
/-- Well-formedness of every value of an object. -/
def wfJsonPairs : JsonPairs → Bool
  | .nil => true
  | .cons _ v t => wfJson v && wfJsonPairs t
end

/-- Decimal digits of a natural number, produced with explicit recursion
fuel so that the definition reduces in the kernel. -/
def natDigitsAux : Nat → Nat → List Char
  | 0, _ => []
  | fuel + 1, n =>
    if n < 10 then [hexDigitChar n]
    else natDigitsAux fuel (n / 10) ++ [hexDigitChar (n % 10)]

/-- Decimal digits of a natural number (no leading zeros; `0` is `"0"`). -/
def natDigits (n : Nat) : List Char := natDigitsAux (n + 1) n

/-- Decimal form of an integer (`str(m)` in Python). -/
def intDigits (m : Int) : List Char :=
  if m < 0 then '-' :: natDigits m.natAbs else natDigits m.natAbs

/-- String-body escaping of `json.dumps` (`ensure_ascii=False` form): only
`"`, `\` and control characters are escaped; `\b \t \n \f \r` have short
forms and the remaining control characters become `\u00XX`. -/
def escapeChars : List Char → List Char
  | [] => []
  | c :: rest =>
    (if c = '"' then ['\\', '"']
     else if c = '\\' then ['\\', '\\']
     else if c = '\x08' then ['\\', 'b']
     else if c = '\t' then ['\\', 't']
     else if c = '\n' then ['\\', 'n']
     else if c = '\x0c' then ['\\', 'f']
     else if c = '\r' then ['\\', 'r']
     else if c.toNat < 32 then
       ['\\', 'u', '0', '0', hexDigitChar (c.toNat / 16), hexDigitChar (c.toNat % 16)]
     else [c]) ++ escapeChars rest

mutual
/-- Serialised form of a JSON value: compact `json.dumps` output
(`ensure_ascii=False`), dict insertion order preserved.  Non-integer
decimals are rendered in exponent form `mEe`. -/
def serJson : Json → List Char
  | .null => cs "null"
  | .bool true => cs "true"
  | .bool false => cs "false"
  | .num m e10 => if e10 = 0 then intDigits m else intDigits m ++ 'e' :: intDigits e10
  | .str s => '"' :: escapeChars s ++ ['"']
  | .arr es => '[' :: serJsonList es ++ [']']
  | .obj ps => '{' :: serJsonPairs ps ++ ['}']
  | .nan => cs "NaN"
  | .inf false => cs "Infinity"
  | .inf true => cs "-Infinity"
/-- Comma-separated serialised elements. -/
def serJsonList : JsonList → List Char
  | .nil => []
  | .cons v .nil => serJson v
  | .cons v (JsonList.cons w t) => serJson v ++ ',' :: serJsonList (.cons w t)
/-- Comma-separated serialised `"key":value` members. -/
def serJsonPairs : JsonPairs → List Char
  | .nil => []
  | .cons k v .nil => '"' :: escapeChars k ++ '"' :: ':' :: serJson v
  | .cons k v (JsonPairs.cons k2 v2 t) =>
    '"' :: escapeChars k ++ '"' :: ':' :: serJson v ++ ',' :: serJsonPairs (.cons k2 v2 t)
end

/-- Skip inter-token whitespace, as the `json` scanner does. -/
def skipWs (l : List Char) : List Char := l.dropWhile jsonWs

/-- Value of a run of decimal digit characters. -/
def digitsToNat (ds : List Char) : Nat := ds.foldl (fun a c => a * 10 + digitVal c) 0

/-- Body of a JSON string after the opening quote: characters up to the
closing quote, processing backslash escapes.  A `\uXXXX` escape becomes
`Char.ofNat` of its value (the combination of two consecutive surrogate
escapes into one astral code point, and lone surrogates, are not modelled:
a Lean `Char` cannot hold a surrogate, and no property here exercises
them).  Unescaped control characters are rejected (`strict=True`, the
`json.loads` default). -/
def parseStringBody : List Char → Option (List Char × List Char)
  | [] => none
  | c :: rest =>
    if c = '"' then some ([], rest)
    else if c = '\\' then
      match rest with
      | 'u' :: h1 :: h2 :: h3 :: h4 :: r2 =>
        (match hexVal h1, hexVal h2, hexVal h3, hexVal h4 with
         | some a, some b, some d, some e =>
           (parseStringBody r2).map fun (s, r) =>
             (Char.ofNat (((a * 16 + b) * 16 + d) * 16 + e) :: s, r)
         | _, _, _, _ => none)
      | e :: r2 =>
        (match e with
         | '"' => some '"'
         | '\\' => some '\\'
         | '/' => some '/'
         | 'b' => some '\x08'
         | 'f' => some '\x0c'
         | 'n' => some '\n'
         | 'r' => some '\r'
         | 't' => some '\t'
         | _ => none).bind fun ec =>
          (parseStringBody r2).map fun (s, r) => (ec :: s, r)
      | [] => none
    else if c.toNat < 32 then none
    else (parseStringBody rest).map fun (s, r) => (c :: s, r)

/-- Exponent part of a number token: `[eE]` was already seen (`orig` is the
input including it); an exponent with no digits does not match, in which
case the number ends before the `[eE]` (the regex group is optional). -/
def expPart (orig : List Char) (rest : List Char) : Int × List Char :=
  match rest with
  | '+' :: r5 =>
    if r5.takeWhile isDigitC = [] then (0, orig)
    else ((digitsToNat (r5.takeWhile isDigitC) : Int), r5.dropWhile isDigitC)
  | '-' :: r5 =>
    if r5.takeWhile isDigitC = [] then (0, orig)
    else (-(digitsToNat (r5.takeWhile isDigitC) : Int), r5.dropWhile isDigitC)
  | _ =>
    if rest.takeWhile isDigitC = [] then (0, orig)
    else ((digitsToNat (rest.takeWhile isDigitC) : Int), rest.dropWhile isDigitC)

/-- Integer part of a number token: `0` alone, or a nonzero leading digit
followed by the maximal digit run (the regex piece `0|[1-9]\\d*`). -/
def intPart (c : Char) (r : List Char) : List Char × List Char :=
  if c = '0' then ([c], r) else (c :: r.takeWhile isDigitC, r.dropWhile isDigitC)

/-- Optional fraction of a number token (`(\\.\\d+)?`): present only when a
dot with at least one digit follows. -/
def fracPart (r2 : List Char) : List Char × List Char :=
  match r2 with
  | '.' :: rf =>
    if rf.takeWhile isDigitC = [] then ([], r2)
    else (rf.takeWhile isDigitC, rf.dropWhile isDigitC)
  | _ => ([], r2)

/-- Optional exponent of a number token (`([eE][-+]?\\d+)?`). -/
def expPart2 (r3 : List Char) : Int × List Char :=
  match r3 with
  | 'e' :: rest4 => expPart r3 rest4
  | 'E' :: rest4 => expPart r3 rest4
  | _ => (0, r3)

/-- Number token of `json.loads`: regex
`(-?(?:0|[1-9]\\d*))(\\.\\d+)?([eE][-+]?\\d+)?` — optional sign, integer
part without leading zeros, optional fraction, optional exponent.  The
value is represented exactly as `m * 10 ^ e10`. -/
def parseNumber (l : List Char) : Option (Json × List Char) :=
  let negl1 : Bool × List Char := match l with | '-' :: r => (true, r) | _ => (false, l)
  match negl1.2 with
  | [] => none
  | c :: r =>
    if ¬ isDigitC c then none
    else
      let ipr2 := intPart c r
      let frr3 := fracPart ipr2.2
      let expr4 := expPart2 frr3.2
      let m0 : Nat := digitsToNat (ipr2.1 ++ frr3.1)
      let m : Int := if negl1.1 then -(m0 : Int) else (m0 : Int)
      some (.num m (expr4.1 - frr3.1.length), expr4.2)

/-- The `null` literal after its first character. -/
def litNull (rest : List Char) : Option (Json × List Char) :=
  match rest with
  | 'u' :: 'l' :: 'l' :: r => some (.null, r)
  | _ => none

/-- The `true` literal after its first character. -/
def litTrue (rest : List Char) : Option (Json × List Char) :=
  match rest with
  | 'r' :: 'u' :: 'e' :: r => some (.bool true, r)
  | _ => none

/-- The `false` literal after its first character. -/
def litFalse (rest : List Char) : Option (Json × List Char) :=
  match rest with
  | 'a' :: 'l' :: 's' :: 'e' :: r => some (.bool false, r)
  | _ => none

/-- The `NaN` literal after its first character. -/
def litNaN (rest : List Char) : Option (Json × List Char) :=
  match rest with
  | 'a' :: 'N' :: r => some (.nan, r)
  | _ => none

/-- The `Infinity` literal after its first character. -/
def litInf (rest : List Char) : Option (Json × List Char) :=
  match rest with
  | 'n' :: 'f' :: 'i' :: 'n' :: 'i' :: 't' :: 'y' :: r => some (.inf false, r)
  | _ => none

/-- The `-Infinity` literal after its leading minus sign. -/
def litNegInf (rest : List Char) : Option (Json × List Char) :=
  match rest with
  | 'I' :: 'n' :: 'f' :: 'i' :: 'n' :: 'i' :: 't' :: 'y' :: r => some (.inf true, r)
  | _ => none

mutual
/-- One value at the current position (`scan_once`): leading whitespace is
NOT skipped here, matching the Python scanner.  Dispatch on the first
character, then strings, objects, arrays, the literals, and finally the
number token (with `NaN`, `Infinity`, `-Infinity` also accepted). -/
def parseValue : Nat → List Char → Option (Json × List Char)
  | 0, _ => none
  | _ + 1, [] => none
  | fuel + 1, c :: rest =>
    if c = '"' then (parseStringBody rest).map fun (s, r) => (.str s, r)
    else if c = '\x7b' then
      match skipWs rest with
      | '\x7d' :: r => some (.obj .nil, r)
      | l1 => (parseMembers fuel l1).map fun (ps, r) => (.obj (dictify ps), r)
    else if c = '[' then
      match skipWs rest with
      | ']' :: r => some (.arr .nil, r)
      | l1 => (parseElems fuel l1).map fun (es, r) => (.arr es, r)
    else if c = 'n' then litNull rest
    else if c = 't' then litTrue rest
    else if c = 'f' then litFalse rest
    else if c = 'N' then litNaN rest
    else if c = 'I' then litInf rest
    else if c = '-' ∧ rest.head? = some 'I' then litNegInf rest
    else parseNumber (c :: rest)
/-- Array elements after `[` and whitespace, positioned at the first
element: value, then `,` (more elements) or `]` (done), whitespace
around separators. -/
def parseElems : Nat → List Char → Option (JsonList × List Char)
  | 0, _ => none
  | fuel + 1, l =>
    match parseValue fuel l with
    | none => none
    | some (v, r) =>
      match skipWs r with
      | ']' :: r2 => some (.cons v .nil, r2)
      | ',' :: r2 =>
        match parseElems fuel (skipWs r2) with
        | some (es, r3) => some (.cons v es, r3)
        | none => none
      | _ => none
/-- Object members after `{` and whitespace, positioned at the first key:
`"key"`, whitespace, `:`, whitespace, value, then `,` or `}`. -/
def parseMembers : Nat → List Char → Option (JsonPairs × List Char)
  | 0, _ => none
  | fuel + 1, l =>
    match l with
    | '"' :: rest =>
      match parseStringBody rest with
      | none => none
      | some (k, r1) =>
        match skipWs r1 with
        | ':' :: r2 =>
          match parseValue fuel (skipWs r2) with
          | none => none
          | some (v, r3) =>
            match skipWs r3 with
            | '\x7d' :: r4 => some (.cons k v .nil, r4)
            | ',' :: r4 =>
              match parseMembers fuel (skipWs r4) with
              | some (ps, r5) => some (.cons k v ps, r5)
              | none => none
            | _ => none
        | _ => none
    | _ => none
end

/-- Model of `json.loads`: skip leading whitespace, parse one value, skip
trailing whitespace, and require the input to be exhausted (`Extra data`
otherwise).  `none` models a raised `json.JSONDecodeError`.  The fuel
`2 * length + 4` dominates the parser's needs (each unit of fuel spent on
the element/member loops consumes at least one input character, and values
consume one character before recursing). -/
def json_loads (l : List Char) : Option Json :=
  let l1 := skipWs l
  match parseValue (2 * l.length + 4) l1 with
  | some (v, rest) => if skipWs rest = [] then some v else none
  | none => none

/-- Decidable equality for `Except`, used to evaluate parser results on
concrete inputs. -/
instance instDecEqExcept {e a : Type} [DecidableEq e] [DecidableEq a] :
    DecidableEq (Except e a)
  | .error x, .error y =>
    if h : x = y then isTrue (by rw [h]) else isFalse (by simp [h])
  | .error _, .ok _ => isFalse (by simp)
  | .ok _, .error _ => isFalse (by simp)
  | .ok x, .ok y =>
    if h : x = y then isTrue (by rw [h]) else isFalse (by simp [h])

/-! ## Markdown-fence cleaning (`_parse_response`, lines 107-112) -/

/-- Right-strip of `pySpace` characters. -/
def rstripP (l : List Char) : List Char := (l.reverse.dropWhile pySpace).reverse

/-- Model of the Python `str.strip()` method. -/
def pyStrip (l : List Char) : List Char := rstripP (l.dropWhile pySpace)

/-- Boolean prefix test (`str.startswith`). -/
def listStartsWith (pre l : List Char) : Bool := decide (l.take pre.length = pre)

/-- Model of `re.sub(r'^```(?:json)?\s*', '', t)`: if the text starts with
three backticks, drop them, then the optional literal `json`, then any
whitespace run; otherwise the text is unchanged. -/
def stripLeadingFence (l : List Char) : List Char :=
  match l with
  | '`' :: '`' :: '`' :: rest =>
    (if rest.take 4 = ['j', 's', 'o', 'n'] then rest.drop 4 else rest).dropWhile pySpace
  | _ => l

/-- Model of `re.sub(r'\s*```$', '', t)` for texts that do not end in a
newline (every call site passes a right-stripped text, so the
match-before-final-newline subtlety of the `$` anchor cannot arise): if the
text ends with three backticks, drop them and the whitespace run before
them; otherwise the text is unchanged. -/
def stripTrailingFence (l : List Char) : List Char :=
  match l.reverse with
  | '`' :: '`' :: '`' :: rest => (rest.dropWhile pySpace).reverse
  | _ => l

/-- Cleaning step shared by `_parse_response` (lines 107-112) and
`generate_multiple_recipes` (lines 160-163): strip, then remove a leading
and a trailing markdown fence when the text starts with one. -/
def cleanResponse (text : List Char) : List Char :=
  let cleaned := pyStrip text
  if listStartsWith ['`', '`', '`'] cleaned then
    stripTrailingFence (stripLeadingFence cleaned)
  else cleaned

/-! ## `RecipeGenerator._parse_response` -/

/-- Fallback dictionary built on `json.JSONDecodeError`
(`_parse_response`, lines 125-133). -/
def fallbackRecipe (response_text : List Char) : Json :=
  .obj (.cons (cs "recipe_name") (.str (cs "Generated Recipe"))
    (.cons (cs "description") (.str (response_text.take 200))
      (.cons (cs "ingredients") (.arr .nil)
        (.cons (cs "instructions") (.arr (.cons (.str response_text) .nil))
          (.cons (cs "error") (.str (cs "Failed to parse structured recipe")) .nil)))))

/-- Python type name of a JSON value (used in error messages; `int` versus
`float` follows the exponent-free test, a close approximation that no
property here depends on). -/
def pyTypeName : Json → List Char
  | .null => cs "NoneType"
  | .bool _ => cs "bool"
  | .num _ e10 => if e10 = 0 then cs "int" else cs "float"
  | .str _ => cs "str"
  | .arr _ => cs "list"
  | .obj _ => cs "dict"
  | .nan => cs "float"
  | .inf _ => cs "float"

/-- Containment of `pat` as a contiguous run (Python substring test). -/
def containsSeq (pat : List Char) : List Char → Bool
  | [] => listStartsWith pat []
  | c :: t => listStartsWith pat (c :: t) || containsSeq pat t

/-- Element membership of a string in a list (`"f" in somelist`): Python
equality of a `str` with a non-`str` element is `False`. -/
def elemStr (field : List Char) : JsonList → Bool
  | .nil => false
  | .cons (.str s) t => s = field || elemStr field t
  | .cons _ t => elemStr field t

/-- Python membership test `field in value` for values `json.loads` can
produce: dict → key membership, list → element equality, str → substring;
the remaining types raise `TypeError` (modelled as the message text; the
quoting of the type name in the real message is elided). -/
def pyIn (field : List Char) : Json → Except (List Char) Bool
  | .obj ps => .ok (keyMem field ps)
  | .arr es => .ok (elemStr field es)
  | .str s => .ok (containsSeq field s)
  | v => .error (cs "argument of type " ++ pyTypeName v ++ cs " is not iterable")

/-- Required fields of the single-recipe shape (`_parse_response`,
line 118). -/
def requiredFields : List (List Char) := [cs "recipe_name", cs "ingredients", cs "instructions"]

/-- Validation loop of `_parse_response` (lines 119-121): raise
`ValueError("Missing required field: ...")` at the first absent field; a
`TypeError` from the membership test on a non-container value propagates
as well. -/
def checkRequired (v : Json) : List (List Char) → Except (List Char) Unit
  | [] => .ok ()
  | f :: t =>
    match pyIn f v with
    | .error e => .error e
    | .ok true => checkRequired v t
    | .ok false => .error (cs "Missing required field: " ++ f)

/-- Model of `RecipeGenerator._parse_response`: clean the text, parse it as
JSON; a `json.JSONDecodeError` (and only that) produces the fallback
dictionary; on parse success the required fields are validated, and any
exception of that step is re-raised as
`Exception("Error parsing recipe: " + str(e))`, modelled as the error
string. -/
def RecipeGenerator.parse_response (response_text : List Char) : Except (List Char) Json :=
  let cleaned := cleanResponse response_text
  match json_loads (pyStrip cleaned) with
  | none => .ok (fallbackRecipe response_text)
  | some recipe_data =>
    match checkRequired recipe_data requiredFields with
    | .ok _ => .ok recipe_data
    | .error e => .error (cs "Error parsing recipe: " ++ e)

/-! ## `RecipeGenerator._build_prompt` -/

/-- Model of `", ".join(xs)`. -/
def joinComma : List (List Char) → List Char
  | [] => []
  | [x] => x
  | x :: y :: t => x ++ cs ", " ++ joinComma (y :: t)

/-- Text of the single-recipe prompt before the ingredient interpolation. -/
def singlePromptPre : List Char :=
  cs "You are a professional chef. Create a detailed recipe using the following ingredients: "

/-- Text of the single-recipe prompt after the ingredient interpolation
(instructions and the literal JSON schema template). -/
def singlePromptPost : List Char :=
  cs "\n\nInstructions:\n1. Create ONE complete recipe that uses as many of the provided ingredients as possible\n2. You can suggest common pantry items (salt, pepper, oil, etc.) if needed\n3. Provide the response in the following JSON format ONLY (no additional text):\n\n\x7b\n  \"recipe_name\": \"Name of the dish\",\n  \"description\": \"Brief description of the dish\",\n  \"cuisine_type\": \"Type of cuisine\",\n  \"prep_time\": \"Preparation time in minutes\",\n  \"cook_time\": \"Cooking time in minutes\",\n  \"servings\": \"Number of servings\",\n  \"difficulty\": \"Easy/Medium/Hard\",\n  \"ingredients\": [\n    \x7b\"item\": \"ingredient name\", \"quantity\": \"amount\", \"unit\": \"measurement unit\"\x7d\n  ],\n  \"instructions\": [\n    \"Step 1 instruction\",\n    \"Step 2 instruction\"\n  ],\n  \"nutritional_info\": \x7b\n    \"calories\": \"approximate calories per serving\",\n    \"protein\": \"grams\",\n    \"carbs\": \"grams\",\n    \"fat\": \"grams\"\n  \x7d,\n  \"tips\": [\n    \"Cooking tip 1\",\n    \"Cooking tip 2\"\n  ]\n\x7d\n"

/-- Style-preference clause appended when `cuisine_type` is truthy. -/
def cuisineClause (c : List Char) : List Char :=
  cs "\n- Prefer " ++ c ++ cs " cuisine style"

/-- Dietary-restrictions clause appended when the list is non-empty. -/
def restrictionsClause (rs : List (List Char)) : List Char :=
  cs "\n- Follow these dietary restrictions: " ++ joinComma rs

/-- Final instruction appended to every single-recipe prompt. -/
def onlyJsonClause : List Char :=
  cs "\n\nProvide ONLY the JSON response, no additional text or markdown formatting."

/-- Model of `RecipeGenerator._build_prompt` (lines 50-102), mirroring the
imperative appends: base prompt with the joined ingredients, then the
style clause when `cuisine_type` is truthy (non-`None`, non-empty), then
the restrictions clause when the list is non-`None` and non-empty, then
the final JSON-only instruction. -/
def RecipeGenerator.build_prompt (ingredients : List (List Char))
    (cuisine_type : Option (List Char))
    (dietary_restrictions : Option (List (List Char))) : List Char :=
  let prompt := singlePromptPre ++ joinComma ingredients ++ singlePromptPost
  let prompt := match cuisine_type with
    | some c => if c = [] then prompt else prompt ++ cuisineClause c
    | none => prompt
  let prompt := match dietary_restrictions with
    | some rs => if rs.length > 0 then prompt ++ restrictionsClause rs else prompt
    | none => prompt
  prompt ++ onlyJsonClause

/-- Model of the inline prompt of `generate_multiple_recipes`
(lines 140-155). -/
def RecipeGenerator.build_multi_prompt (ingredients : List (List Char)) (count : Int) : List Char :=
  cs "You are a professional chef. Suggest " ++ intDigits count
    ++ cs " different recipes using these ingredients: " ++ joinComma ingredients
    ++ cs "\n\nProvide " ++ intDigits count
    ++ cs " brief recipe ideas in JSON format:\n\x7b\n  \"recipes\": [\n    \x7b\n      \"recipe_name\": \"Name\",\n      \"description\": \"Brief description\",\n      \"cuisine_type\": \"Type\",\n      \"difficulty\": \"Easy/Medium/Hard\",\n      \"estimated_time\": \"Total time in minutes\"\n    \x7d\n  ]\n\x7d\n\nProvide ONLY the JSON response."

/-! ## Orchestrators (`generate_recipe`, `generate_multiple_recipes`) -/

/-- Success dictionary of `generate_recipe` (lines 38-41). -/
def successSingle (recipe : Json) : Json :=
  .obj (.cons (cs "success") (.bool true) (.cons (cs "recipe") recipe .nil))

/-- Failure dictionary of both orchestrators (lines 44-48 and 173-177):
`success=False`, the stringified exception, and a fixed message. -/
def failureResult (error message : List Char) : Json :=
  .obj (.cons (cs "success") (.bool false)
    (.cons (cs "error") (.str error)
      (.cons (cs "message") (.str message) .nil)))

/-- Type of the external generation capability: prompt text to either the
response text or a raised exception (stringified). -/
def ModelFn : Type := List Char → Except (List Char) (List Char)

/-- Model of `RecipeGenerator.generate_recipe` (lines 15-48): build the
prompt, invoke the external call, parse the response; every exception —
from the external call or from the parser — is caught by the
`except Exception` clause and turned into the failure dictionary with the
fixed message `"Failed to generate recipe"`. -/
def RecipeGenerator.generate_recipe (ingredients : List (List Char))
    (cuisine_type : Option (List Char))
    (dietary_restrictions : Option (List (List Char))) (model : ModelFn) : Json :=
  match model (RecipeGenerator.build_prompt ingredients cuisine_type dietary_restrictions) with
  | .error e => failureResult e (cs "Failed to generate recipe")
  | .ok text =>
    match RecipeGenerator.parse_response text with
    | .ok recipe_data => successSingle recipe_data
    | .error e => failureResult e (cs "Failed to generate recipe")

/-- The `somedict.get(key, default)` call of line 169; on a non-dict value
the attribute access raises `AttributeError` (modelled as the message
text, quoting elided). -/
def pyGet (v : Json) (k : List Char) (dflt : Json) : Except (List Char) Json :=
  match v with
  | .obj ps => .ok ((lookupPairs k ps).getD dflt)
  | _ => .error (pyTypeName v ++ cs " object has no attribute get")

/-- Representative text of a stringified `json.JSONDecodeError` (the
line/column details of the real message are not modelled; no property
here inspects this text). -/
def jsonDecodeMsg : List Char := cs "Expecting value"

/-- Model of `RecipeGenerator.generate_multiple_recipes` (lines 137-177):
inline prompt, external call, the same fence cleaning, `json.loads`, and
`recipes_data.get("recipes", [])`; every exception is caught and turned
into the failure dictionary with the fixed message
`"Failed to generate recipe suggestions"`.  A parsed object without the
`recipes` key yields a success dictionary with an empty list. -/
def RecipeGenerator.generate_multiple_recipes (ingredients : List (List Char)) (count : Int)
    (model : ModelFn) : Json :=
  match model (RecipeGenerator.build_multi_prompt ingredients count) with
  | .error e => failureResult e (cs "Failed to generate recipe suggestions")
  | .ok text =>
    let cleaned := cleanResponse text
    match json_loads (pyStrip cleaned) with
    | none => failureResult jsonDecodeMsg (cs "Failed to generate recipe suggestions")
    | some recipes_data =>
      match pyGet recipes_data (cs "recipes") (.arr .nil) with
      | .ok recipes =>
        .obj (.cons (cs "success") (.bool true) (.cons (cs "recipes") recipes .nil))
      | .error e => failureResult e (cs "Failed to generate recipe suggestions")

/-! ## Request validation (`app.py`, pydantic models) and HTTP boundary -/

/-- Configured maximum ingredient count (`Config.MAX_INGREDIENTS`,
default 20). -/
def MAX_INGREDIENTS : Nat := 20

/-- Validated `/generate_recipe` request (pydantic `RecipeRequest`). -/
structure RecipeRequest where
  ingredients : List (List Char)
  cuisine_type : Option (List Char)
  dietary_restrictions : Option (List (List Char))
deriving DecidableEq

/-- Validated `/suggest_recipes` request (pydantic
`MultipleRecipesRequest`). -/
structure MultipleRecipesRequest where
  ingredients : List (List Char)
  count : Int
deriving DecidableEq

/-- All-strings view of a JSON array (`List[str]`; a non-string element is
a validation error). -/
def strListOf : JsonList → Option (List (List Char))
  | .nil => some []
  | .cons (.str s) t => (strListOf t).map (s :: ·)
  | .cons _ _ => none

/-- The `ingredients` field: required, a list of strings, length between 1
and `MAX_INGREDIENTS` (`Field(..., min_length=1, max_length=...)`). -/
def parseIngredientsField (ps : JsonPairs) : Option (List (List Char)) :=
  match lookupPairs (cs "ingredients") ps with
  | some (.arr es) =>
    match strListOf es with
    | some l => if 1 ≤ l.length ∧ l.length ≤ MAX_INGREDIENTS then some l else none
    | none => none
  | _ => none

/-- The optional `cuisine_type` field (`Optional[str] = None`). -/
def parseCuisineField (ps : JsonPairs) : Option (Option (List Char)) :=
  match lookupPairs (cs "cuisine_type") ps with
  | none => some none
  | some .null => some none
  | some (.str s) => some (some s)
  | some _ => none

/-- The optional `dietary_restrictions` field
(`Optional[List[str]] = []`): absent → `[]`, explicit null → `None`. -/
def parseRestrictionsField (ps : JsonPairs) : Option (Option (List (List Char))) :=
  match lookupPairs (cs "dietary_restrictions") ps with
  | none => some (some [])
  | some .null => some none
  | some (.arr es) => (strListOf es).map some
  | some _ => none

/-- The optional `count` field (`int = Field(default=3, ge=1, le=5)`);
only integer JSON numbers are accepted (the lax numeric coercions of
pydantic are not exercised here). -/
def parseCountField (ps : JsonPairs) : Option Int :=
  match lookupPairs (cs "count") ps with
  | none => some 3
  | some (.num m e10) => if e10 = 0 ∧ 1 ≤ m ∧ m ≤ 5 then some m else none
  | some _ => none

/-- Model of `RecipeRequest(**data)`: `none` is a raised
`ValidationError`.  Extra keys are ignored (the pydantic default). -/
def toRecipeRequest (v : Json) : Option RecipeRequest :=
  match v with
  | .obj ps =>
    match parseIngredientsField ps, parseCuisineField ps, parseRestrictionsField ps with
    | some ing, some ct, some dr => some ⟨ing, ct, dr⟩
    | _, _, _ => none
  | _ => none

/-- Model of `MultipleRecipesRequest(**data)`. -/
def toMultipleRecipesRequest (v : Json) : Option MultipleRecipesRequest :=
  match v with
  | .obj ps =>
    match parseIngredientsField ps, parseCountField ps with
    | some ing, some c => some ⟨ing, c⟩
    | _, _ => none
  | _ => none

/-- Python truthiness of a JSON value (`if not data`). -/
def pyTruthy : Json → Bool
  | .null => false
  | .bool b => b
  | .num m _ => decide (m ≠ 0)
  | .str s => decide (s ≠ [])
  | .arr .nil => false
  | .arr _ => true
  | .obj .nil => false
  | .obj _ => true
  | .nan => true
  | .inf _ => true

/-- HTTP status and JSON body of a response. -/
structure HttpResponse where
  status : Nat
  body : Json
deriving DecidableEq

/-- Body of the 400 response for an absent/falsy request payload. -/
def noDataBody : Json :=
  .obj (.cons (cs "success") (.bool false)
    (.cons (cs "error") (.str (cs "No data provided")) .nil))

/-- Placeholder for the `e.errors()` list attached to validation
failures (its per-field content is not modelled; no property here
inspects it). -/
def validationDetails : Json := .arr .nil

/-- Body of the 400 response for a pydantic validation failure. -/
def validationErrorBody : Json :=
  .obj (.cons (cs "success") (.bool false)
    (.cons (cs "error") (.str (cs "Validation error"))
      (.cons (cs "details") validationDetails .nil)))

/-- Body of the 500 response produced by the outer `except Exception`
handler. -/
def internalErrorBody (msg : List Char) : Json :=
  .obj (.cons (cs "success") (.bool false)
    (.cons (cs "error") (.str (cs "Internal server error"))
      (.cons (cs "message") (.str msg) .nil)))

/-- The `result["success"]` test of the view functions; every result
dictionary built by the generator carries the key, so the default cannot
fire. -/
def resultSuccess (result : Json) : Bool :=
  match result with
  | .obj ps => pyTruthy ((lookupPairs (cs "success") ps).getD .null)
  | _ => false

/-- Mapping of a generator result to the HTTP layer: 200 on success, 500
on failure, with the result dictionary as the body. -/
def wrapResult (result : Json) : HttpResponse :=
  if resultSuccess result then ⟨200, result⟩ else ⟨500, result⟩

/-- Model of the `/generate_recipe` view (app.py, lines 54-109).
`request.get_json()` is modelled as `Option Json`, with `none` for an
absent body; a falsy payload is answered with 400 `"No data provided"`, a
non-dict payload makes the `**data` unpacking raise a `TypeError` that the
outer handler turns into a 500, a validation failure is a 400, and
otherwise the generator result is wrapped. -/
def App.generate_recipe (data : Option Json) (model : ModelFn) : HttpResponse :=
  match data with
  | none => ⟨400, noDataBody⟩
  | some v =>
    if pyTruthy v then
      match v with
      | .obj _ =>
        match toRecipeRequest v with
        | none => ⟨400, validationErrorBody⟩
        | some req =>
          wrapResult (RecipeGenerator.generate_recipe
            req.ingredients req.cuisine_type req.dietary_restrictions model)
      | _ => ⟨500, internalErrorBody (cs "argument after ** must be a mapping")⟩
    else ⟨400, noDataBody⟩

/-- Model of the `/suggest_recipes` view (app.py, lines 112-165), with the
same boundary behaviour as `App.generate_recipe`. -/
def App.suggest_recipes (data : Option Json) (model : ModelFn) : HttpResponse :=
  match data with
  | none => ⟨400, noDataBody⟩
  | some v =>
    if pyTruthy v then
      match v with
      | .obj _ =>
        match toMultipleRecipesRequest v with
        | none => ⟨400, validationErrorBody⟩
        | some req =>
          wrapResult (RecipeGenerator.generate_multiple_recipes req.ingredients req.count model)
      | _ => ⟨500, internalErrorBody (cs "argument after ** must be a mapping")⟩
    else ⟨400, noDataBody⟩

/-- Heads that cannot start another digit run. -/
def headNotDigit (l : List Char) : Prop :=
  ∀ c, l.head? = some c → isDigitC c = false

/-- Heads allowed to follow a serialised value: end of input or a
separator. -/
def restDelim (l : List Char) : Prop :=
  ∀ c, l.head? = some c → c = ',' ∨ c = ']' ∨ c = '\x7d'

/-- Heads that end a number token entirely. -/
def numStop (l : List Char) : Prop :=
  ∀ c, l.head? = some c → isDigitC c = false ∧ c ≠ '.' ∧ c ≠ 'e' ∧ c ≠ 'E'

/-! ## Request bodies used in the boundary properties -/

/-- JSON encoding of a list of strings. -/
def strJsonList : List (List Char) → JsonList
  | [] => .nil
  | s :: t => .cons (.str s) (strJsonList t)

/-- Request body holding only a well-typed `ingredients` array. -/
def ingBody (l : List (List Char)) : Json :=
  .obj (.cons (cs "ingredients") (.arr (strJsonList l)) .nil)

/-- The request body `{"ingredients": ["egg"], "count": 7}`. -/
def count7Body : Json :=
  .obj (.cons (cs "ingredients") (.arr (.cons (.str (cs "egg")) .nil))
    (.cons (cs "count") (.num 7 0) .nil))

/-- The contribution of the `cuisine_type` argument to the prompt. -/
def ctClause : Option (List Char) → List Char
  | some c => if c = [] then [] else cuisineClause c
  | none => []

/-- The contribution of the `dietary_restrictions` argument to the
prompt. -/
def drClause : Option (List (List Char)) → List Char
  | some rs => if rs.length > 0 then restrictionsClause rs else []
  | none => []

/-! ## Basic list and whitespace lemmas -/

theorem jsonWs_imp_pySpace {c : Char} (h : jsonWs c = true) : pySpace c = true := by
  simp only [jsonWs, Bool.or_eq_true, decide_eq_true_eq] at h
  rcases h with ((h | h) | h) | h <;> subst h <;> decide

theorem dropWhile_head_false {p : Char → Bool} (l : List Char) :
    ∀ {c t}, l.dropWhile p = c :: t → p c = false := by
  induction l with
  | nil => intro c t h; simp [List.dropWhile] at h
  | cons a l ih =>
    intro c t h
    rw [List.dropWhile_cons] at h
    split at h
    · exact ih h
    · cases h; simpa using ‹¬ p a = true›

theorem dropWhile_cons_false {p : Char → Bool} {c : Char} (t : List Char)
    (h : p c = false) : (c :: t).dropWhile p = c :: t := by
  rw [List.dropWhile_cons, h]; simp

theorem dropWhile_idem {p : Char → Bool} (l : List Char) :
    (l.dropWhile p).dropWhile p = l.dropWhile p := by
  induction l with
  | nil => rfl
  | cons a l ih =>
    rw [List.dropWhile_cons]
    split
    · exact ih
    · rw [dropWhile_cons_false _ (by simpa using ‹¬ p a = true›)]

theorem dropWhile_append_of_ne_nil {p : Char → Bool} :
    ∀ {l₁ : List Char}, l₁.dropWhile p ≠ [] →
      ∀ l₂, (l₁ ++ l₂).dropWhile p = l₁.dropWhile p ++ l₂ := by
  intro l₁
  induction l₁ with
  | nil => intro h; simp at h
  | cons a l ih =>
    intro h l₂
    by_cases hp : p a = true
    · rw [List.dropWhile_cons, if_pos hp] at h
      rw [List.cons_append, List.dropWhile_cons, if_pos hp,
        List.dropWhile_cons, if_pos hp]
      exact ih h l₂
    · rw [List.cons_append, List.dropWhile_cons, if_neg hp,
        List.dropWhile_cons, if_neg hp]
      simp

theorem dropWhile_append_of_nil {p : Char → Bool} :
    ∀ {l₁ : List Char}, l₁.dropWhile p = [] →
      ∀ l₂, (l₁ ++ l₂).dropWhile p = l₂.dropWhile p := by
  intro l₁
  induction l₁ with
  | nil => intro _ l₂; simp
  | cons a l ih =>
    intro h l₂
    rw [List.dropWhile_cons] at h
    split at h
    · rename_i hp
      rw [List.cons_append, List.dropWhile_cons, if_pos hp]
      exact ih h l₂
    · simp at h

theorem rstripP_concat_false {c : Char} (l : List Char) (h : pySpace c = false) :
    rstripP (l ++ [c]) = l ++ [c] := by
  simp [rstripP, List.reverse_append, dropWhile_cons_false _ h]

theorem rstripP_idem (l : List Char) : rstripP (rstripP l) = rstripP l := by
  simp [rstripP, List.reverse_reverse, dropWhile_idem]

theorem rstripP_shape (c : Char) (t : List Char) :
    rstripP (c :: t) = [] ∨ ∃ t2, rstripP (c :: t) = c :: t2 := by
  unfold rstripP
  rw [show (c :: t).reverse = t.reverse ++ [c] by simp]
  rcases h : (t.reverse).dropWhile pySpace with _ | ⟨d, u⟩
  · rw [dropWhile_append_of_nil h [c]]
    by_cases hc : pySpace c = true
    · left; simp [List.dropWhile, hc]
    · right
      refine ⟨[], ?_⟩
      simp [List.dropWhile, hc]
  · rw [dropWhile_append_of_ne_nil (by simp [h]) [c], h]
    right
    exact ⟨(d :: u).reverse, by simp⟩

theorem pyStrip_head_false {l : List Char} {c : Char} {t : List Char}
    (h : pyStrip l = c :: t) : pySpace c = false := by
  unfold pyStrip at h
  rcases hA : l.dropWhile pySpace with _ | ⟨a, u⟩ <;> rw [hA] at h
  · simp [rstripP] at h
  · have ha : pySpace a = false := dropWhile_head_false _ hA
    rcases rstripP_shape a u with h2 | ⟨t2, h2⟩ <;> rw [h2] at h
    · cases h
    · cases h; exact ha

theorem pyStrip_idem (l : List Char) : pyStrip (pyStrip l) = pyStrip l := by
  show rstripP ((pyStrip l).dropWhile pySpace) = pyStrip l
  rcases h : pyStrip l with _ | ⟨c, t⟩
  · simp [rstripP]
  · rw [dropWhile_cons_false _ (pyStrip_head_false h), ← h]
    unfold pyStrip
    exact rstripP_idem _

/-! ## Digit lemmas -/

theorem hexDigitChar_val : ∀ d, d < 10 → digitVal (hexDigitChar d) = d := by decide

theorem hexDigitChar_isDigit : ∀ d, d < 10 → isDigitC (hexDigitChar d) = true := by decide

theorem hexDigitChar_ne_zero : ∀ d, d < 10 → d ≠ 0 → hexDigitChar d ≠ '0' := by decide

theorem hexVal_hexDigitChar : ∀ k, k < 16 → hexVal (hexDigitChar k) = some k := by decide

theorem natDigitsAux_spec :
    ∀ fuel n, n < fuel →
      natDigitsAux fuel n ≠ [] ∧
      (∀ c ∈ natDigitsAux fuel n, ∃ d, d < 10 ∧ c = hexDigitChar d) ∧
      ∀ a : Nat, (natDigitsAux fuel n).foldl (fun acc c => acc * 10 + digitVal c) a =
        a * 10 ^ (natDigitsAux fuel n).length + n := by
  intro fuel
  induction fuel with
  | zero => intro n hn; omega
  | succ f ih =>
    intro n hn
    by_cases h10 : n < 10
    · rw [natDigitsAux, if_pos h10]
      refine ⟨by simp, ?_, ?_⟩
      · intro c hc
        simp only [List.mem_singleton] at hc
        exact ⟨n, h10, hc⟩
      · intro a
        simp [List.foldl, hexDigitChar_val n h10]
    · rw [natDigitsAux, if_neg h10]
      obtain ⟨hne, hmem, hval⟩ := ih (n / 10) (by omega)
      refine ⟨by simp, ?_, ?_⟩
      · intro c hc
        rcases List.mem_append.mp hc with h | h
        · exact hmem c h
        · simp only [List.mem_singleton] at h
          exact ⟨n % 10, by omega, h⟩
      · intro a
        rw [List.foldl_append, hval a, List.length_append]
        simp only [List.foldl, List.length_singleton]
        rw [hexDigitChar_val _ (by omega)]
        have hdm : n / 10 * 10 + n % 10 = n := by omega
        have hp : 10 ^ ((natDigitsAux f (n / 10)).length + 1) =
            10 ^ (natDigitsAux f (n / 10)).length * 10 := by
          rw [pow_succ]
        rw [hp]
        ring_nf
        omega

theorem natDigitsAux_head_ne_zero :
    ∀ fuel n, n < fuel → n ≠ 0 →
      ∀ {c : Char} {t : List Char}, natDigitsAux fuel n = c :: t → c ≠ '0' := by
  intro fuel
  induction fuel with
  | zero => intro n hn; omega
  | succ f ih =>
    intro n hn hn0 c t h
    by_cases h10 : n < 10
    · rw [natDigitsAux, if_pos h10] at h
      cases h
      exact hexDigitChar_ne_zero n h10 hn0
    · rw [natDigitsAux, if_neg h10] at h
      obtain ⟨hne, -, -⟩ := natDigitsAux_spec f (n / 10) (by omega)
      rcases hA : natDigitsAux f (n / 10) with _ | ⟨c0, t0⟩
      · exact absurd hA hne
      · rw [hA, List.cons_append] at h
        cases h
        exact ih (n / 10) (by omega) (by omega) hA

theorem natDigits_ne_nil (n : Nat) : natDigits n ≠ [] :=
  (natDigitsAux_spec (n + 1) n (Nat.lt_succ_self n)).1

theorem natDigits_mem (n : Nat) : ∀ c ∈ natDigits n, ∃ d, d < 10 ∧ c = hexDigitChar d :=
  (natDigitsAux_spec (n + 1) n (Nat.lt_succ_self n)).2.1

theorem natDigits_val (n : Nat) : digitsToNat (natDigits n) = n := by
  have := (natDigitsAux_spec (n + 1) n (Nat.lt_succ_self n)).2.2 0
  simpa [digitsToNat, natDigits] using this

theorem natDigits_head_ne_zero {n : Nat} (hn : n ≠ 0) {c : Char} {t : List Char}
    (h : natDigits n = c :: t) : c ≠ '0' :=
  natDigitsAux_head_ne_zero (n + 1) n (Nat.lt_succ_self n) hn h

theorem natDigits_zero : natDigits 0 = ['0'] := by decide

/-- Character facts about decimal digits, used to steer the parser
dispatch. -/
theorem digitCharFacts : ∀ d, d < 10 →
    isDigitC (hexDigitChar d) = true ∧ jsonWs (hexDigitChar d) = false ∧
    pySpace (hexDigitChar d) = false ∧
    hexDigitChar d ≠ '-' ∧ hexDigitChar d ≠ '"' ∧ hexDigitChar d ≠ '\x7b' ∧
    hexDigitChar d ≠ '[' ∧ hexDigitChar d ≠ 'n' ∧ hexDigitChar d ≠ 't' ∧
    hexDigitChar d ≠ 'f' ∧ hexDigitChar d ≠ 'N' ∧ hexDigitChar d ≠ 'I' ∧
    hexDigitChar d ≠ ']' ∧ hexDigitChar d ≠ '`' ∧ hexDigitChar d ≠ '.' ∧
    hexDigitChar d ≠ '\x7d' := by decide

theorem takeWhile_digits {rest : List Char} (hrest : headNotDigit rest) :
    ∀ {ds : List Char}, (∀ c ∈ ds, isDigitC c = true) →
      (ds ++ rest).takeWhile isDigitC = ds ∧ (ds ++ rest).dropWhile isDigitC = rest := by
  intro ds
  induction ds with
  | nil =>
    intro _
    rcases hr : rest with _ | ⟨r, t⟩
    · simp
    · have : isDigitC r = false := hrest r (by rw [hr]; rfl)
      simp [List.takeWhile_cons, List.dropWhile_cons, this]
  | cons d ds ih =>
    intro hds
    have hd : isDigitC d = true := hds d (by simp)
    obtain ⟨h1, h2⟩ := ih fun c hc => hds c (by simp [hc])
    rw [List.cons_append, List.takeWhile_cons, List.dropWhile_cons]
    simp [hd, h1, h2]

theorem skipWs_cons_false {c : Char} (t : List Char) (h : jsonWs c = false) :
    skipWs (c :: t) = c :: t :=
  dropWhile_cons_false t h

theorem restDelim_headNotDigit {l : List Char} (h : restDelim l) : headNotDigit l := by
  intro c hc
  rcases h c hc with h2 | h2 | h2 <;> subst h2 <;> decide

/-! ## String escaping round trip -/

theorem parseStringBody_escape :
    ∀ (s rest : List Char), parseStringBody (escapeChars s ++ '"' :: rest) = some (s, rest) := by
  intro s
  induction s with
  | nil =>
    intro rest
    show parseStringBody ([] ++ '"' :: rest) = some ([], rest)
    rw [List.nil_append]
    unfold parseStringBody
    simp
  | cons c s ih =>
    intro rest
    rw [escapeChars]
    by_cases h1 : c = '"'
    · subst h1
      simp [parseStringBody, ih]
    by_cases h2 : c = '\\'
    · subst h2
      simp [parseStringBody, ih]
    by_cases h3 : c = '\x08'
    · subst h3
      simp [parseStringBody, ih]
    by_cases h4 : c = '\t'
    · subst h4
      simp [parseStringBody, ih]
    by_cases h5 : c = '\n'
    · subst h5
      simp [parseStringBody, ih]
    by_cases h6 : c = '\x0c'
    · subst h6
      simp [parseStringBody, ih]
    by_cases h7 : c = '\r'
    · subst h7
      simp [parseStringBody, ih]
    by_cases h8 : c.toNat < 32
    · rw [if_neg h1, if_neg h2, if_neg h3, if_neg h4, if_neg h5, if_neg h6, if_neg h7,
        if_pos h8]
      have hlo : c.toNat % 16 < 16 := Nat.mod_lt _ (by omega)
      have hhi : c.toNat / 16 < 16 := by omega
      simp only [List.cons_append, List.nil_append]
      unfold parseStringBody
      simp only [show (('\\' : Char) = '"') = False by simp, if_false,
        show (('\\' : Char) = '\\') = True by simp, if_true,
        show hexVal '0' = some 0 by decide, hexVal_hexDigitChar _ hhi,
        hexVal_hexDigitChar _ hlo, ih]
      rw [show ((0 * 16 + 0) * 16 + c.toNat / 16) * 16 + c.toNat % 16 = c.toNat by omega,
        Char.ofNat_toNat]
      rfl
    · rw [if_neg h1, if_neg h2, if_neg h3, if_neg h4, if_neg h5, if_neg h6, if_neg h7,
        if_neg h8]
      simp only [List.cons_append, List.nil_append]
      unfold parseStringBody
      rw [if_neg h1, if_neg h2, if_neg h8, ih]
      rfl


theorem restDelim_numStop {l : List Char} (h : restDelim l) : numStop l := by
  intro c hc
  rcases h c hc with h2 | h2 | h2 <;> subst h2 <;>
    refine ⟨by decide, by decide, by decide, by decide⟩

theorem fracPart_not_dot {l : List Char} (h : ∀ c, l.head? = some c → c ≠ '.') :
    fracPart l = ([], l) := by
  unfold fracPart
  split
  · exact absurd rfl (h '.' rfl)
  · rfl

theorem expPart2_not_exp {l : List Char} (h : ∀ c, l.head? = some c → c ≠ 'e' ∧ c ≠ 'E') :
    expPart2 l = (0, l) := by
  unfold expPart2
  split
  · exact absurd rfl (h 'e' rfl).1
  · exact absurd rfl (h 'E' rfl).2
  · rfl

theorem natDigits_all_digits (n : Nat) : ∀ x ∈ natDigits n, isDigitC x = true := by
  intro x hx
  obtain ⟨d, hd, hxd⟩ := natDigits_mem n x hx
  rw [hxd]
  exact hexDigitChar_isDigit d hd

theorem expPart_intDigits (e : Int) (orig : List Char) {rest : List Char}
    (hrest : headNotDigit rest) :
    expPart orig (intDigits e ++ rest) = (e, rest) := by
  obtain ⟨htake, hdrop⟩ := takeWhile_digits hrest (natDigits_all_digits e.natAbs)
  by_cases he : e < 0
  · rw [intDigits, if_pos he, List.cons_append]
    unfold expPart
    split
    · rename_i r5 heq
      cases heq
    · rename_i r5 heq
      injection heq with h1 h2
      subst h2
      simp only [List.append_eq] at *
      rw [htake, hdrop, if_neg (natDigits_ne_nil _), natDigits_val]
      have : -(e.natAbs : Int) = e := by omega
      rw [this]
    · rename_i hne1 hne2
      exact absurd rfl (hne2 (natDigits e.natAbs ++ rest))
  · rw [intDigits, if_neg he]
    rcases hND : natDigits e.natAbs with _ | ⟨c, ds⟩
    · exact absurd hND (natDigits_ne_nil _)
    have hc : isDigitC c = true := natDigits_all_digits e.natAbs c (by rw [hND]; simp)
    rw [List.cons_append]
    unfold expPart
    split
    · rename_i r5 heq
      injection heq with h1 h2
      subst h1
      exact absurd hc (by decide)
    · rename_i r5 heq
      injection heq with h1 h2
      subst h1
      exact absurd hc (by decide)
    · rw [← List.cons_append, ← hND, htake, hdrop,
        if_neg (by rw [hND]; simp), natDigits_val]
      have : (e.natAbs : Int) = e := by omega
      rw [this]

theorem expPart2_exp (e : Int) {rest : List Char} (hrest : headNotDigit rest) :
    expPart2 ('e' :: (intDigits e ++ rest)) = (e, rest) := by
  unfold expPart2
  exact expPart_intDigits e _ hrest

theorem intPart_natDigits (n : Nat) {after : List Char} (hnd : headNotDigit after) :
    ∀ {c : Char} {ds : List Char}, natDigits n = c :: ds →
      intPart c (ds ++ after) = (natDigits n, after) := by
  intro c ds hND
  by_cases h0 : c = '0'
  · have hn : n = 0 := by
      by_contra hn0
      exact natDigits_head_ne_zero hn0 hND h0
    subst hn
    rw [natDigits_zero] at hND
    cases hND
    unfold intPart
    rw [if_pos rfl, natDigits_zero]
    simp
  · unfold intPart
    rw [if_neg h0]
    have hds : ∀ x ∈ ds, isDigitC x = true := by
      intro x hx
      exact natDigits_all_digits n x (by rw [hND]; simp [hx])
    obtain ⟨ht, hd⟩ := takeWhile_digits hnd hds
    rw [ht, hd, hND]

theorem parseNumber_build_pos (n : Nat) {tail : List Char}
    (hnd : headNotDigit tail) (e : Int) (rest : List Char)
    (hfrac : fracPart tail = ([], tail))
    (hexp : expPart2 tail = (e, rest)) :
    parseNumber (natDigits n ++ tail) = some (.num (n : Int) e, rest) := by
  rcases hND : natDigits n with _ | ⟨c, ds⟩
  · exact absurd hND (natDigits_ne_nil n)
  have hc : isDigitC c = true := natDigits_all_digits n c (by rw [hND]; simp)
  have hip := intPart_natDigits n hnd hND
  rw [List.cons_append]
  unfold parseNumber
  split
  · rename_i r heq
    injection heq with h1 h2
    subst h1
    exact absurd hc (by decide)
  · rename_i heq2
    simp only [hip, hfrac, hexp, List.append_nil, natDigits_val, hc]
    simp

theorem parseNumber_build_neg (n : Nat) {tail : List Char}
    (hnd : headNotDigit tail) (e : Int) (rest : List Char)
    (hfrac : fracPart tail = ([], tail))
    (hexp : expPart2 tail = (e, rest)) :
    parseNumber ('-' :: (natDigits n ++ tail)) = some (.num (-(n : Int)) e, rest) := by
  rcases hND : natDigits n with _ | ⟨c, ds⟩
  · exact absurd hND (natDigits_ne_nil n)
  have hc : isDigitC c = true := natDigits_all_digits n c (by rw [hND]; simp)
  have hip := intPart_natDigits n hnd hND
  rw [List.cons_append]
  unfold parseNumber
  simp only [hip, hfrac, hexp, List.append_nil, natDigits_val, hc]
  simp


theorem serJson_num (m e10 : Int) :
    serJson (.num m e10) =
      if e10 = 0 then intDigits m else intDigits m ++ 'e' :: intDigits e10 := rfl

theorem parseNumber_ser (m e10 : Int) {rest : List Char} (hrest : restDelim rest) :
    parseNumber (serJson (.num m e10) ++ rest) = some (.num m e10, rest) := by
  have hnd : headNotDigit rest := restDelim_headNotDigit hrest
  have hstop := restDelim_numStop hrest
  have hfrac : fracPart rest = ([], rest) :=
    fracPart_not_dot (fun c hc => (hstop c hc).2.1)
  have hexp0 : expPart2 rest = (0, rest) :=
    expPart2_not_exp (fun c hc => ⟨(hstop c hc).2.2.1, (hstop c hc).2.2.2⟩)
  by_cases he : e10 = 0
  · subst he
    rw [serJson_num, if_pos rfl]
    by_cases hm : m < 0
    · rw [intDigits, if_pos hm, List.cons_append,
        parseNumber_build_neg m.natAbs hnd 0 rest hfrac hexp0,
        show -(m.natAbs : Int) = m by omega]
    · rw [intDigits, if_neg hm,
        parseNumber_build_pos m.natAbs hnd 0 rest hfrac hexp0,
        show ((m.natAbs : Int)) = m by omega]
  · have hnd2 : headNotDigit ('e' :: (intDigits e10 ++ rest)) := by
      intro c hc
      simp only [List.head?_cons, Option.some.injEq] at hc
      subst hc
      decide
    have hfrace : fracPart ('e' :: (intDigits e10 ++ rest)) =
        ([], 'e' :: (intDigits e10 ++ rest)) := by
      refine fracPart_not_dot ?_
      intro c hc
      simp only [List.head?_cons, Option.some.injEq] at hc
      subst hc
      decide
    have hexpe : expPart2 ('e' :: (intDigits e10 ++ rest)) = (e10, rest) :=
      expPart2_exp e10 hnd
    rw [serJson_num, if_neg he, List.append_assoc, List.cons_append]
    by_cases hm : m < 0
    · rw [intDigits, if_pos hm, List.cons_append,
        parseNumber_build_neg m.natAbs hnd2 e10 rest hfrace hexpe,
        show -(m.natAbs : Int) = m by omega]
    · rw [intDigits, if_neg hm,
        parseNumber_build_pos m.natAbs hnd2 e10 rest hfrace hexpe,
        show ((m.natAbs : Int)) = m by omega]

/-! ## Serialiser shape facts -/

theorem intDigits_shape (m : Int) :
    ∃ c r, intDigits m = c :: r ∧ jsonWs c = false ∧ pySpace c = false ∧
      c ≠ ']' ∧ c ≠ '\x7d' ∧ c ≠ '`' := by
  by_cases hm : m < 0
  · exact ⟨'-', natDigits m.natAbs, by rw [intDigits, if_pos hm], by decide, by decide,
      by decide, by decide, by decide⟩
  · rcases hND : natDigits m.natAbs with _ | ⟨c, ds⟩
    · exact absurd hND (natDigits_ne_nil _)
    obtain ⟨d, hd, hcd⟩ := natDigits_mem m.natAbs c (by rw [hND]; simp)
    obtain ⟨-, f2, f3, -, -, -, -, -, -, -, -, -, f13, f14, -, f16⟩ := digitCharFacts d hd
    subst hcd
    exact ⟨_, ds, by rw [intDigits, if_neg hm, hND], f2, f3, f13, f16, f14⟩

theorem serJson_shape (v : Json) :
    ∃ c r, serJson v = c :: r ∧ jsonWs c = false ∧ pySpace c = false ∧
      c ≠ ']' ∧ c ≠ '\x7d' ∧ c ≠ '`' := by
  cases v with
  | null => exact ⟨'n', _, rfl, by decide, by decide, by decide, by decide, by decide⟩
  | bool b =>
    cases b
    · exact ⟨'f', _, rfl, by decide, by decide, by decide, by decide, by decide⟩
    · exact ⟨'t', _, rfl, by decide, by decide, by decide, by decide, by decide⟩
  | num m e10 =>
    obtain ⟨c, r, hcr, f1, f2, f3, f4, f5⟩ := intDigits_shape m
    by_cases he : e10 = 0
    · exact ⟨c, r, by rw [serJson_num, if_pos he, hcr], f1, f2, f3, f4, f5⟩
    · exact ⟨c, r ++ 'e' :: intDigits e10,
        by rw [serJson_num, if_neg he, hcr, List.cons_append], f1, f2, f3, f4, f5⟩
  | str s => exact ⟨'"', _, rfl, by decide, by decide, by decide, by decide, by decide⟩
  | arr es => exact ⟨'[', _, rfl, by decide, by decide, by decide, by decide, by decide⟩
  | obj ps => exact ⟨'\x7b', _, rfl, by decide, by decide, by decide, by decide, by decide⟩
  | nan => exact ⟨'N', _, rfl, by decide, by decide, by decide, by decide, by decide⟩
  | inf neg =>
    cases neg
    · exact ⟨'I', _, rfl, by decide, by decide, by decide, by decide, by decide⟩
    · exact ⟨'-', _, rfl, by decide, by decide, by decide, by decide, by decide⟩

theorem serJson_ne_nil (v : Json) : serJson v ≠ [] := by
  obtain ⟨c, r, h, -⟩ := serJson_shape v
  rw [h]
  simp

theorem serJsonList_cons_eq (v : Json) (t : JsonList) :
    serJsonList (.cons v t) =
      serJson v ++ (match t with | .nil => [] | _ => ',' :: serJsonList t) := by
  cases t <;> simp [serJsonList]

theorem serJsonPairs_cons_eq (k : List Char) (v : Json) (t : JsonPairs) :
    serJsonPairs (.cons k v t) =
      '"' :: escapeChars k ++ '"' :: ':' :: serJson v ++
        (match t with | .nil => [] | _ => ',' :: serJsonPairs t) := by
  cases t <;> simp [serJsonPairs]

theorem serJsonList_shape {es : JsonList} (h : es ≠ .nil) :
    ∃ c r, serJsonList es = c :: r ∧ jsonWs c = false ∧ c ≠ ']' := by
  cases es with
  | nil => exact absurd rfl h
  | cons v t =>
    obtain ⟨c, r, hcr, f1, -, f3, -, -⟩ := serJson_shape v
    exact ⟨c, _, by rw [serJsonList_cons_eq, hcr, List.cons_append], f1, f3⟩

theorem serJsonPairs_head {ps : JsonPairs} (h : ps ≠ .nil) :
    ∃ r, serJsonPairs ps = '"' :: r := by
  cases ps with
  | nil => exact absurd rfl h
  | cons k v t =>
    cases t with
    | nil => exact ⟨_, rfl⟩
    | cons k2 v2 t2 => exact ⟨_, rfl⟩

/-! ## Dict construction lemmas -/

theorem pairsApp_nil : ∀ ps : JsonPairs, pairsApp ps .nil = ps
  | .nil => rfl
  | .cons k v t => by rw [pairsApp, pairsApp_nil t]

theorem pairsApp_assoc : ∀ a b c : JsonPairs,
    pairsApp (pairsApp a b) c = pairsApp a (pairsApp b c)
  | .nil, _, _ => rfl
  | .cons k v t, b, c => by rw [pairsApp, pairsApp, pairsApp, pairsApp_assoc t]

theorem keyMem_pairsApp (k : List Char) :
    ∀ a b : JsonPairs, keyMem k (pairsApp a b) = (keyMem k a || keyMem k b)
  | .nil, b => by rw [pairsApp, keyMem]; simp
  | .cons k2 v t, b => by
    rw [pairsApp, keyMem, keyMem, keyMem_pairsApp k t, Bool.or_assoc]

theorem upsertPair_not_mem (v : Json) :
    ∀ {ps : JsonPairs} {k : List Char}, keyMem k ps = false →
      upsertPair ps k v = pairsApp ps (.cons k v .nil)
  | .nil, k, _ => rfl
  | .cons k2 v2 t, k, h => by
    rw [keyMem, Bool.or_eq_false_iff] at h
    rw [upsertPair, if_neg (by simpa using h.1), pairsApp, upsertPair_not_mem v h.2]

theorem dictifyAux_disjoint :
    ∀ (ps acc : JsonPairs), keysNodup ps = true →
      (∀ k, keyMem k ps = true → keyMem k acc = false) →
      dictifyAux acc ps = pairsApp acc ps
  | .nil, acc, _, _ => by rw [dictifyAux, pairsApp_nil]
  | .cons k v t, acc, hnodup, hdisj => by
    rw [keysNodup, Bool.and_eq_true] at hnodup
    have hkacc : keyMem k acc = false := hdisj k (by rw [keyMem]; simp)
    have hdisj2 : ∀ k2, keyMem k2 t = true →
        keyMem k2 (pairsApp acc (.cons k v .nil)) = false := by
      intro k2 hk2
      rw [keyMem_pairsApp, Bool.or_eq_false_iff]
      refine ⟨hdisj k2 (by rw [keyMem, hk2]; simp), ?_⟩
      rw [keyMem, keyMem]
      simp only [Bool.or_false]
      by_cases hkk : k = k2
      · subst hkk
        rw [hk2] at hnodup
        simp at hnodup
      · simpa using hkk
    rw [dictifyAux, upsertPair_not_mem v hkacc,
      dictifyAux_disjoint t (pairsApp acc (.cons k v .nil)) hnodup.2 hdisj2,
      pairsApp_assoc]
    rfl

theorem dictify_eq_self {ps : JsonPairs} (h : keysNodup ps = true) : dictify ps = ps := by
  rw [dictify, dictifyAux_disjoint ps .nil h (fun k _ => rfl)]
  rfl


/-! ## Parser dispatch lemmas (one per leading character) -/

theorem parseValue_quote (g : Nat) (rest : List Char) :
    parseValue (g + 1) ('"' :: rest) =
      (parseStringBody rest).map fun x => (Json.str x.1, x.2) := rfl

theorem parseValue_lbrace (g : Nat) (rest : List Char) :
    parseValue (g + 1) ('\x7b' :: rest) =
      (match skipWs rest with
       | '\x7d' :: r => some (.obj .nil, r)
       | l1 => (parseMembers g l1).map fun x => (.obj (dictify x.1), x.2)) := rfl

theorem parseValue_lbrack (g : Nat) (rest : List Char) :
    parseValue (g + 1) ('[' :: rest) =
      (match skipWs rest with
       | ']' :: r => some (.arr .nil, r)
       | l1 => (parseElems g l1).map fun x => (.arr x.1, x.2)) := rfl

theorem parseValue_nullLit (g : Nat) (rest : List Char) :
    parseValue (g + 1) ('n' :: 'u' :: 'l' :: 'l' :: rest) = some (.null, rest) := rfl

theorem parseValue_trueLit (g : Nat) (rest : List Char) :
    parseValue (g + 1) ('t' :: 'r' :: 'u' :: 'e' :: rest) = some (.bool true, rest) := rfl

theorem parseValue_falseLit (g : Nat) (rest : List Char) :
    parseValue (g + 1) ('f' :: 'a' :: 'l' :: 's' :: 'e' :: rest) =
      some (.bool false, rest) := rfl

theorem parseValue_nanLit (g : Nat) (rest : List Char) :
    parseValue (g + 1) ('N' :: 'a' :: 'N' :: rest) = some (.nan, rest) := rfl

theorem parseValue_infLit (g : Nat) (rest : List Char) :
    parseValue (g + 1) ('I' :: 'n' :: 'f' :: 'i' :: 'n' :: 'i' :: 't' :: 'y' :: rest) =
      some (.inf false, rest) := rfl

theorem parseValue_negInfLit (g : Nat) (rest : List Char) :
    parseValue (g + 1)
        ('-' :: 'I' :: 'n' :: 'f' :: 'i' :: 'n' :: 'i' :: 't' :: 'y' :: rest) =
      some (.inf true, rest) := rfl

theorem parseValue_to_parseNumber (g : Nat) {c : Char} (t : List Char)
    (h1 : c ≠ '"') (h2 : c ≠ '\x7b') (h3 : c ≠ '[') (h4 : c ≠ 'n') (h5 : c ≠ 't')
    (h6 : c ≠ 'f') (h7 : c ≠ 'N') (h8 : c ≠ 'I')
    (h9 : ¬(c = '-' ∧ t.head? = some 'I')) :
    parseValue (g + 1) (c :: t) = parseNumber (c :: t) := by
  unfold parseValue
  rw [if_neg h1, if_neg h2, if_neg h3, if_neg h4, if_neg h5, if_neg h6, if_neg h7,
    if_neg h8, if_neg h9]

theorem intDigits_dispatch (m : Int) :
    ∃ c r, intDigits m = c :: r ∧ c ≠ '"' ∧ c ≠ '\x7b' ∧ c ≠ '[' ∧ c ≠ 'n' ∧ c ≠ 't' ∧
      c ≠ 'f' ∧ c ≠ 'N' ∧ c ≠ 'I' ∧
      ∀ X : List Char, ¬(c = '-' ∧ (r ++ X).head? = some 'I') := by
  rcases hND : natDigits m.natAbs with _ | ⟨c0, ds⟩
  · exact absurd hND (natDigits_ne_nil _)
  obtain ⟨d, hd, hcd⟩ := natDigits_mem m.natAbs c0 (by rw [hND]; simp)
  obtain ⟨-, -, -, fneg, fq, fbrace, fbrack, fn, ft, ff, fN, fI, -, -, -, -⟩ :=
    digitCharFacts d hd
  by_cases hm : m < 0
  · refine ⟨'-', c0 :: ds, by rw [intDigits, if_pos hm, hND], by decide, by decide,
      by decide, by decide, by decide, by decide, by decide, by decide, ?_⟩
    intro X hX
    rw [List.cons_append, List.head?_cons, Option.some.injEq] at hX
    rw [hcd] at hX
    exact absurd hX.2 fI
  · subst hcd
    refine ⟨_, ds, by rw [intDigits, if_neg hm, hND], fq, fbrace, fbrack, fn, ft, ff,
      fN, fI, ?_⟩
    intro X hX
    exact absurd hX.1 fneg

/-! ## Round trip: the parser recovers every serialised well-formed value -/

theorem restDelim_cons_comma (X : List Char) : restDelim (',' :: X) := by
  intro c hc
  rw [List.head?_cons, Option.some.injEq] at hc
  subst hc
  left; rfl

theorem restDelim_cons_rbrack (X : List Char) : restDelim (']' :: X) := by
  intro c hc
  rw [List.head?_cons, Option.some.injEq] at hc
  subst hc
  right; left; rfl

theorem restDelim_cons_rbrace (X : List Char) : restDelim ('\x7d' :: X) := by
  intro c hc
  rw [List.head?_cons, Option.some.injEq] at hc
  subst hc
  right; right; rfl


theorem parseElems_step (g : Nat) (l : List Char) :
    parseElems (g + 1) l =
      (match parseValue g l with
       | none => none
       | some (v, r) =>
         match skipWs r with
         | ']' :: r2 => some (.cons v .nil, r2)
         | ',' :: r2 =>
           (match parseElems g (skipWs r2) with
            | some (es, r3) => some (.cons v es, r3)
            | none => none)
         | _ => none) := rfl

theorem parseMembers_step (g : Nat) (l : List Char) :
    parseMembers (g + 1) l =
      (match l with
       | '"' :: rest =>
         (match parseStringBody rest with
          | none => none
          | some (k, r1) =>
            match skipWs r1 with
            | ':' :: r2 =>
              (match parseValue g (skipWs r2) with
               | none => none
               | some (v, r3) =>
                 match skipWs r3 with
                 | '\x7d' :: r4 => some (.cons k v .nil, r4)
                 | ',' :: r4 =>
                   (match parseMembers g (skipWs r4) with
                    | some (ps, r5) => some (.cons k v ps, r5)
                    | none => none)
                 | _ => none)
            | _ => none)
       | _ => none) := rfl

theorem parseElems_last (g : Nat) {l : List Char} {v : Json} {rest : List Char}
    (h : parseValue g l = some (v, ']' :: rest)) :
    parseElems (g + 1) l = some (.cons v .nil, rest) := by
  rw [parseElems_step, h]
  rfl

theorem parseElems_more (g : Nat) {l X : List Char} {v : Json} {es : JsonList}
    {r3 : List Char} (h : parseValue g l = some (v, ',' :: X))
    (h2 : parseElems g (skipWs X) = some (es, r3)) :
    parseElems (g + 1) l = some (.cons v es, r3) := by
  rw [parseElems_step, h]
  show (match parseElems g (skipWs X) with
        | some (es2, r4) => some (JsonList.cons v es2, r4)
        | none => none) = some (JsonList.cons v es, r3)
  rw [h2]

theorem parseMembers_last (g : Nat) (k : List Char) {Y : List Char} {v : Json}
    {rest : List Char} (hY : parseValue g (skipWs Y) = some (v, '\x7d' :: rest)) :
    parseMembers (g + 1) ('"' :: (escapeChars k ++ '"' :: ':' :: Y)) =
      some (.cons k v .nil, rest) := by
  show (match parseStringBody (escapeChars k ++ '"' :: ':' :: Y) with
        | none => none
        | some (k2, r1) =>
          match skipWs r1 with
          | ':' :: r2 =>
            (match parseValue g (skipWs r2) with
             | none => none
             | some (v2, r3) =>
               match skipWs r3 with
               | '\x7d' :: r4 => some (JsonPairs.cons k2 v2 .nil, r4)
               | ',' :: r4 =>
                 (match parseMembers g (skipWs r4) with
                  | some (ps2, r6) => some (JsonPairs.cons k2 v2 ps2, r6)
                  | none => none)
               | _ => none)
          | _ => none) = some (JsonPairs.cons k v .nil, rest)
  rw [parseStringBody_escape]
  show (match parseValue g (skipWs Y) with
        | none => none
        | some (v2, r3) =>
          match skipWs r3 with
          | '\x7d' :: r4 => some (JsonPairs.cons k v2 .nil, r4)
          | ',' :: r4 =>
            (match parseMembers g (skipWs r4) with
             | some (ps, r5) => some (JsonPairs.cons k v2 ps, r5)
             | none => none)
          | _ => none) = some (JsonPairs.cons k v .nil, rest)
  rw [hY]
  rfl

theorem parseMembers_more (g : Nat) (k : List Char) {Y : List Char} (X : List Char)
    {v : Json} {ps : JsonPairs} {r5 : List Char}
    (hY : parseValue g (skipWs Y) = some (v, ',' :: X))
    (hps : parseMembers g (skipWs X) = some (ps, r5)) :
    parseMembers (g + 1) ('"' :: (escapeChars k ++ '"' :: ':' :: Y)) =
      some (.cons k v ps, r5) := by
  show (match parseStringBody (escapeChars k ++ '"' :: ':' :: Y) with
        | none => none
        | some (k2, r1) =>
          match skipWs r1 with
          | ':' :: r2 =>
            (match parseValue g (skipWs r2) with
             | none => none
             | some (v2, r3) =>
               match skipWs r3 with
               | '\x7d' :: r4 => some (JsonPairs.cons k2 v2 .nil, r4)
               | ',' :: r4 =>
                 (match parseMembers g (skipWs r4) with
                  | some (ps2, r6) => some (JsonPairs.cons k2 v2 ps2, r6)
                  | none => none)
               | _ => none)
          | _ => none) = some (JsonPairs.cons k v ps, r5)
  rw [parseStringBody_escape]
  show (match parseValue g (skipWs Y) with
        | none => none
        | some (v2, r3) =>
          match skipWs r3 with
          | '\x7d' :: r4 => some (JsonPairs.cons k v2 .nil, r4)
          | ',' :: r4 =>
            (match parseMembers g (skipWs r4) with
             | some (ps2, r6) => some (JsonPairs.cons k v2 ps2, r6)
             | none => none)
          | _ => none) = some (JsonPairs.cons k v ps, r5)
  rw [hY]
  show (match parseMembers g (skipWs X) with
        | some (ps2, r6) => some (JsonPairs.cons k v ps2, r6)
        | none => none) = some (JsonPairs.cons k v ps, r5)
  rw [hps]

theorem parse_ser_fuel :
    ∀ fuel : Nat,
      (∀ (v : Json) (rest : List Char), wfJson v = true → (serJson v).length < fuel →
        restDelim rest → parseValue fuel (serJson v ++ rest) = some (v, rest)) ∧
      (∀ (es : JsonList) (rest : List Char), wfJsonList es = true → es ≠ .nil →
        (serJsonList es).length + 1 < fuel →
        parseElems fuel (serJsonList es ++ ']' :: rest) = some (es, rest)) ∧
      (∀ (ps : JsonPairs) (rest : List Char), wfJsonPairs ps = true → ps ≠ .nil →
        (serJsonPairs ps).length + 1 < fuel →
        parseMembers fuel (serJsonPairs ps ++ '\x7d' :: rest) = some (ps, rest)) := by
  intro fuel
  induction fuel with
  | zero =>
    exact ⟨fun v rest _ hlen _ => absurd hlen (by omega),
      fun es rest _ _ hlen => absurd hlen (by omega),
      fun ps rest _ _ hlen => absurd hlen (by omega)⟩
  | succ g ih =>
    obtain ⟨ihP, ihQ, ihR⟩ := ih
    refine ⟨?_, ?_, ?_⟩
    · -- values
      intro v rest hwf hlen hrest
      cases v with
      | null => exact parseValue_nullLit g rest
      | bool b =>
        cases b
        · exact parseValue_falseLit g rest
        · exact parseValue_trueLit g rest
      | nan => exact parseValue_nanLit g rest
      | inf neg =>
        cases neg
        · exact parseValue_infLit g rest
        · exact parseValue_negInfLit g rest
      | str s =>
        have hser : serJson (.str s) ++ rest = '"' :: (escapeChars s ++ '"' :: rest) := by
          show ('"' :: escapeChars s ++ ['"']) ++ rest = _
          simp
        rw [hser, parseValue_quote, parseStringBody_escape]
        rfl
      | num m e10 =>
        obtain ⟨c, r, hcr, f1, f2, f3, f4, f5, f6, f7, f8, f9⟩ := intDigits_dispatch m
        have hps := parseNumber_ser m e10 hrest
        by_cases he : e10 = 0
        · rw [serJson_num, if_pos he, hcr, List.cons_append] at hps ⊢
          rw [parseValue_to_parseNumber g _ f1 f2 f3 f4 f5 f6 f7 f8 (f9 rest)]
          exact hps
        · rw [serJson_num, if_neg he, hcr] at hps ⊢
          simp only [List.cons_append, List.append_assoc] at hps ⊢
          rw [parseValue_to_parseNumber g _ f1 f2 f3 f4 f5 f6 f7 f8
            (f9 ('e' :: (intDigits e10 ++ rest)))]
          exact hps
      | arr es =>
        cases es with
        | nil =>
          rw [show serJson (.arr .nil) ++ rest = '[' :: ']' :: rest from rfl,
            parseValue_lbrack, skipWs_cons_false _ (by decide)]
          rfl
        | cons w t =>
          have hne : (JsonList.cons w t) ≠ .nil := fun h => JsonList.noConfusion h
          obtain ⟨c1, r1, hc1, hws1, hne1⟩ := serJsonList_shape hne
          have hlen2 : (serJsonList (.cons w t)).length + 1 < g := by
            have h0 : serJson (.arr (.cons w t)) = '[' :: serJsonList (.cons w t) ++ [']'] := rfl
            rw [h0] at hlen
            simp only [List.length_cons, List.length_append, List.length_singleton] at hlen
            omega
          have harr : serJson (.arr (.cons w t)) ++ rest =
              '[' :: (serJsonList (.cons w t) ++ ']' :: rest) := by
            show ('[' :: serJsonList (.cons w t) ++ [']']) ++ rest = _
            simp
          rw [harr, parseValue_lbrack, hc1, List.cons_append, skipWs_cons_false _ hws1]
          split
          · rename_i heq
            injection heq with hh
            exact absurd hh hne1
          · rw [← List.cons_append, ← hc1, ihQ (.cons w t) rest hwf hne hlen2]
            rfl
      | obj ps =>
        cases ps with
        | nil =>
          rw [show serJson (.obj .nil) ++ rest = '\x7b' :: '\x7d' :: rest from rfl,
            parseValue_lbrace, skipWs_cons_false _ (by decide)]
          rfl
        | cons k w t =>
          have hne : (JsonPairs.cons k w t) ≠ .nil := fun h => JsonPairs.noConfusion h
          obtain ⟨r1, hc1⟩ := serJsonPairs_head hne
          have hwf2 : (keysNodup (.cons k w t) && wfJsonPairs (.cons k w t)) = true := hwf
          rw [Bool.and_eq_true] at hwf2
          have hlen2 : (serJsonPairs (.cons k w t)).length + 1 < g := by
            have h0 : serJson (.obj (.cons k w t)) =
                '\x7b' :: serJsonPairs (.cons k w t) ++ ['\x7d'] := rfl
            rw [h0] at hlen
            simp only [List.length_cons, List.length_append, List.length_singleton] at hlen
            omega
          have hobj : serJson (.obj (.cons k w t)) ++ rest =
              '\x7b' :: (serJsonPairs (.cons k w t) ++ '\x7d' :: rest) := by
            show ('\x7b' :: serJsonPairs (.cons k w t) ++ ['\x7d']) ++ rest = _
            simp
          rw [hobj, parseValue_lbrace, hc1, List.cons_append,
            skipWs_cons_false _ (by decide)]
          split
          · rename_i heq
            injection heq with hh
            exact absurd hh (by decide)
          · rw [← List.cons_append, ← hc1, ihR (.cons k w t) rest hwf2.2 hne hlen2]
            simp only [Option.map_some']
            rw [dictify_eq_self hwf2.1]
    · -- array elements
      intro es rest hwf hne hlen
      cases es with
      | nil => exact absurd rfl hne
      | cons v t =>
        have hwf2 : (wfJson v && wfJsonList t) = true := hwf
        rw [Bool.and_eq_true] at hwf2
        cases t with
        | nil =>
          have hser : serJsonList (.cons v .nil) = serJson v := rfl
          rw [hser] at hlen ⊢
          exact parseElems_last g
            (ihP v (']' :: rest) hwf2.1 (by omega) (restDelim_cons_rbrack rest))
        | cons w t2 =>
          have htne : (JsonList.cons w t2) ≠ .nil := fun h => JsonList.noConfusion h
          obtain ⟨c1, r1, hc1, hws1, -⟩ := serJsonList_shape htne
          have hser : serJsonList (.cons v (.cons w t2)) =
              serJson v ++ ',' :: serJsonList (.cons w t2) := by
            rw [serJsonList_cons_eq]
          obtain ⟨cv, rv, hcv, -⟩ := serJson_shape v
          have hlenv : (serJson v).length < g := by
            rw [hser] at hlen
            simp only [List.length_append, List.length_cons] at hlen
            have : (serJsonList (.cons w t2)).length ≥ 1 := by
              rw [hc1]; simp
            omega
          have hlent : (serJsonList (.cons w t2)).length + 1 < g := by
            rw [hser] at hlen
            simp only [List.length_append, List.length_cons] at hlen
            have : (serJson v).length ≥ 1 := by rw [hcv]; simp
            omega
          have hshape : serJsonList (.cons v (.cons w t2)) ++ ']' :: rest =
              serJson v ++ ',' :: (serJsonList (.cons w t2) ++ ']' :: rest) := by
            rw [hser]
            simp
          have hskip : skipWs (serJsonList (.cons w t2) ++ ']' :: rest) =
              serJsonList (.cons w t2) ++ ']' :: rest := by
            rw [hc1, List.cons_append, skipWs_cons_false _ hws1]
          rw [hshape]
          refine parseElems_more g
            (ihP v (',' :: (serJsonList (.cons w t2) ++ ']' :: rest)) hwf2.1 hlenv
              (restDelim_cons_comma _)) ?_
          rw [hskip]
          exact ihQ (.cons w t2) rest hwf2.2 htne hlent
    · -- object members
      intro ps rest hwf hne hlen
      cases ps with
      | nil => exact absurd rfl hne
      | cons k v t =>
        have hwf2 : (wfJson v && wfJsonPairs t) = true := hwf
        rw [Bool.and_eq_true] at hwf2
        obtain ⟨cv, rv, hcv, hwsv, -⟩ := serJson_shape v
        have hskipv : ∀ X : List Char, skipWs (serJson v ++ X) = serJson v ++ X := by
          intro X
          rw [hcv, List.cons_append, skipWs_cons_false _ hwsv]
        cases t with
        | nil =>
          have hser : serJsonPairs (.cons k v .nil) =
              '"' :: escapeChars k ++ '"' :: ':' :: serJson v := rfl
          have hlenv : (serJson v).length < g := by
            rw [hser] at hlen
            simp only [List.length_cons, List.length_append] at hlen
            omega
          have hshape : serJsonPairs (.cons k v .nil) ++ '\x7d' :: rest =
              '"' :: (escapeChars k ++ '"' :: ':' :: (serJson v ++ '\x7d' :: rest)) := by
            rw [hser]
            simp
          rw [hshape]
          refine parseMembers_last g k ?_
          rw [hskipv ('\x7d' :: rest)]
          exact ihP v ('\x7d' :: rest) hwf2.1 hlenv (restDelim_cons_rbrace rest)
        | cons k2 v2 t2 =>
          have htne : (JsonPairs.cons k2 v2 t2) ≠ .nil := fun h => JsonPairs.noConfusion h
          obtain ⟨r2, hc2⟩ := serJsonPairs_head htne
          have hser : serJsonPairs (.cons k v (.cons k2 v2 t2)) =
              '"' :: escapeChars k ++ '"' :: ':' :: serJson v ++
                ',' :: serJsonPairs (.cons k2 v2 t2) := by
            rw [serJsonPairs_cons_eq]
          have hlenv : (serJson v).length < g := by
            rw [hser] at hlen
            simp only [List.length_cons, List.length_append] at hlen
            omega
          have hlent : (serJsonPairs (.cons k2 v2 t2)).length + 1 < g := by
            rw [hser] at hlen
            simp only [List.length_cons, List.length_append] at hlen
            have : (serJson v).length ≥ 1 := by rw [hcv]; simp
            omega
          have hshape : serJsonPairs (.cons k v (.cons k2 v2 t2)) ++ '\x7d' :: rest =
              '"' :: (escapeChars k ++ '"' :: ':' :: (serJson v ++
                ',' :: (serJsonPairs (.cons k2 v2 t2) ++ '\x7d' :: rest))) := by
            rw [hser]
            simp
          have hskipt : skipWs (serJsonPairs (.cons k2 v2 t2) ++ '\x7d' :: rest) =
              serJsonPairs (.cons k2 v2 t2) ++ '\x7d' :: rest := by
            rw [hc2, List.cons_append, skipWs_cons_false _ (by decide)]
          rw [hshape]
          refine parseMembers_more g k
            (serJsonPairs (.cons k2 v2 t2) ++ '\x7d' :: rest) ?_ ?_
          · rw [hskipv (',' :: (serJsonPairs (.cons k2 v2 t2) ++ '\x7d' :: rest))]
            exact ihP v _ hwf2.1 hlenv (restDelim_cons_comma _)
          · rw [hskipt]
            exact ihR (.cons k2 v2 t2) rest hwf2.2 htne hlent

theorem restDelim_nil : restDelim [] := by
  intro c hc
  simp at hc

theorem json_loads_ser {v : Json} (hwf : wfJson v = true) :
    json_loads (serJson v) = some v := by
  obtain ⟨c, r, hcr, hws, -, -, -, -⟩ := serJson_shape v
  have hP := (parse_ser_fuel (2 * (serJson v).length + 4)).1 v [] hwf (by omega) restDelim_nil
  rw [List.append_nil] at hP
  unfold json_loads
  rw [hcr, skipWs_cons_false _ hws, ← hcr]
  show (match parseValue (2 * (serJson v).length + 4) (serJson v) with
        | some (v2, rest) => if skipWs rest = [] then some v2 else none
        | none => none) = some v
  rw [hP]
  rfl

/-! ## The cleaning pipeline leaves a serialised object untouched -/

theorem listStartsWith_bt_false {c : Char} (X : List Char) (h : c ≠ '`') :
    listStartsWith ['`', '`', '`'] (c :: X) = false := by
  apply decide_eq_false
  intro hEq
  rw [show List.take (['`', '`', '`'] : List Char).length (c :: X) = c :: X.take 2
    from rfl] at hEq
  injection hEq with h1
  exact h h1

theorem pyStrip_serObj (ps : JsonPairs) :
    pyStrip (serJson (.obj ps)) = serJson (.obj ps) := by
  have h1 : (serJson (.obj ps)).dropWhile pySpace = serJson (.obj ps) := by
    rw [show serJson (.obj ps) = '\x7b' :: (serJsonPairs ps ++ ['\x7d']) from rfl]
    exact dropWhile_cons_false _ (by decide)
  unfold pyStrip
  rw [h1, show serJson (.obj ps) = ('\x7b' :: serJsonPairs ps) ++ ['\x7d'] from rfl,
    rstripP_concat_false _ (by decide)]

theorem cleanResponse_serObj (ps : JsonPairs) :
    cleanResponse (serJson (.obj ps)) = serJson (.obj ps) := by
  show (if listStartsWith ['`', '`', '`'] (pyStrip (serJson (.obj ps))) then
          stripTrailingFence (stripLeadingFence (pyStrip (serJson (.obj ps))))
        else pyStrip (serJson (.obj ps))) = serJson (.obj ps)
  rw [pyStrip_serObj,
    show serJson (.obj ps) = '\x7b' :: (serJsonPairs ps ++ ['\x7d']) from rfl,
    listStartsWith_bt_false _ (by decide)]
  rfl

theorem pyIn_obj (f : List Char) (ps : JsonPairs) :
    pyIn f (.obj ps) = .ok (keyMem f ps) := rfl

theorem checkRequired_obj_ok {ps : JsonPairs}
    (h1 : keyMem (cs "recipe_name") ps = true)
    (h2 : keyMem (cs "ingredients") ps = true)
    (h3 : keyMem (cs "instructions") ps = true) :
    checkRequired (.obj ps) requiredFields = .ok () := by
  have e1 : pyIn (cs "recipe_name") (.obj ps) = .ok true := by rw [pyIn_obj, h1]
  have e2 : pyIn (cs "ingredients") (.obj ps) = .ok true := by rw [pyIn_obj, h2]
  have e3 : pyIn (cs "instructions") (.obj ps) = .ok true := by rw [pyIn_obj, h3]
  show checkRequired (.obj ps) [cs "recipe_name", cs "ingredients", cs "instructions"] =
    .ok ()
  simp only [checkRequired, e1, e2, e3]

theorem parse_response_ser_obj {ps : JsonPairs} (hwf : wfJson (.obj ps) = true)
    (h1 : keyMem (cs "recipe_name") ps = true)
    (h2 : keyMem (cs "ingredients") ps = true)
    (h3 : keyMem (cs "instructions") ps = true) :
    RecipeGenerator.parse_response (serJson (.obj ps)) = .ok (.obj ps) := by
  unfold RecipeGenerator.parse_response
  rw [cleanResponse_serObj]
  show (match json_loads (pyStrip (serJson (.obj ps))) with
        | none => Except.ok (fallbackRecipe (serJson (.obj ps)))
        | some recipe_data =>
          (match checkRequired recipe_data requiredFields with
           | Except.ok _ => Except.ok recipe_data
           | Except.error e => Except.error (cs "Error parsing recipe: " ++ e))) =
    Except.ok (Json.obj ps)
  rw [pyStrip_serObj, json_loads_ser hwf]
  show (match checkRequired (.obj ps) requiredFields with
        | .ok _ => Except.ok (Json.obj ps)
        | .error e => Except.error (cs "Error parsing recipe: " ++ e)) = .ok (.obj ps)
  rw [checkRequired_obj_ok h1 h2 h3]

/-! ## Fence stripping on a fenced JSON text -/

theorem parseNumber_backtick (t : List Char) : parseNumber ('`' :: t) = none := by
  unfold parseNumber
  split
  · rename_i r heq
    cases heq
  · rfl

theorem parseValue_backtick : ∀ (fuel : Nat) (t : List Char),
    parseValue fuel ('`' :: t) = none := by
  intro fuel t
  cases fuel with
  | zero => rfl
  | succ g =>
    rw [parseValue_to_parseNumber g t (by decide) (by decide) (by decide) (by decide)
      (by decide) (by decide) (by decide) (by decide)
      (fun hx => absurd hx.1 (by decide)), parseNumber_backtick]

theorem json_loads_nil : json_loads [] = none := rfl

theorem json_loads_head_not_backtick {l : List Char} {v : Json}
    (h : json_loads l = some v) : listStartsWith ['`', '`', '`'] l = false := by
  rcases hl : l with _ | ⟨c, t⟩
  · rfl
  · by_cases hc : c = '`'
    · subst hc
      subst hl
      have hnone : json_loads ('`' :: t) = none := by
        unfold json_loads
        show (match parseValue (2 * ('`' :: t).length + 4) (skipWs ('`' :: t)) with
              | some (v2, rest) => if skipWs rest = [] then some v2 else none
              | none => none) = none
        rw [skipWs_cons_false _ (by decide), parseValue_backtick]
      rw [hnone] at h
      cases h
    · exact listStartsWith_bt_false t hc

theorem json_loads_some_ne_nil {l : List Char} {v : Json}
    (h : json_loads l = some v) : l ≠ [] := by
  intro hnil
  subst hnil
  rw [json_loads_nil] at h
  cases h

theorem pyStrip_some_shape {s : List Char} {v : Json}
    (h : json_loads (pyStrip s) = some v) :
    ∃ c0 t0, s.dropWhile pySpace = c0 :: t0 := by
  rcases hd : s.dropWhile pySpace with _ | ⟨c0, t0⟩
  · exfalso
    have : pyStrip s = [] := by
      unfold pyStrip
      rw [hd]
      rfl
    rw [this] at h
    exact json_loads_some_ne_nil h rfl
  · exact ⟨c0, t0, rfl⟩

theorem cleanResponse_json_fence {s : List Char} {c0 : Char} {t0 : List Char}
    (hne : s.dropWhile pySpace = c0 :: t0) :
    cleanResponse (cs "```json\n" ++ s ++ cs "\n```") = pyStrip s := by
  show cleanResponse
      ('`' :: '`' :: '`' :: 'j' :: 's' :: 'o' :: 'n' :: '\n' ::
        (s ++ ['\n', '`', '`', '`'])) = pyStrip s
  have hstr : pyStrip
      ('`' :: '`' :: '`' :: 'j' :: 's' :: 'o' :: 'n' :: '\n' ::
        (s ++ ['\n', '`', '`', '`'])) =
      '`' :: '`' :: '`' :: 'j' :: 's' :: 'o' :: 'n' :: '\n' ::
        (s ++ ['\n', '`', '`', '`']) := by
    have hd : ('`' :: '`' :: '`' :: 'j' :: 's' :: 'o' :: 'n' :: '\n' ::
        (s ++ ['\n', '`', '`', '`'])).dropWhile pySpace =
        '`' :: '`' :: '`' :: 'j' :: 's' :: 'o' :: 'n' :: '\n' ::
          (s ++ ['\n', '`', '`', '`']) :=
      dropWhile_cons_false _ (by decide)
    have hback : '`' :: '`' :: '`' :: 'j' :: 's' :: 'o' :: 'n' :: '\n' ::
        (s ++ ['\n', '`', '`', '`']) =
        ('`' :: '`' :: '`' :: 'j' :: 's' :: 'o' :: 'n' :: '\n' ::
          (s ++ ['\n', '`', '`'])) ++ ['`'] := by
      simp
    unfold pyStrip
    rw [hd, hback, rstripP_concat_false _ (by decide)]
  have hlead : stripLeadingFence
      ('`' :: '`' :: '`' :: 'j' :: 's' :: 'o' :: 'n' :: '\n' ::
        (s ++ ['\n', '`', '`', '`'])) =
      (c0 :: t0) ++ ['\n', '`', '`', '`'] := by
    show List.dropWhile pySpace (s ++ ['\n', '`', '`', '`']) =
      (c0 :: t0) ++ ['\n', '`', '`', '`']
    rw [dropWhile_append_of_ne_nil (by rw [hne]; simp) ['\n', '`', '`', '`'], hne]
  have htrail : stripTrailingFence ((c0 :: t0) ++ ['\n', '`', '`', '`']) = pyStrip s := by
    unfold stripTrailingFence
    rw [show ((c0 :: t0) ++ ['\n', '`', '`', '`']).reverse =
      '`' :: '`' :: '`' :: ('\n' :: (c0 :: t0).reverse) from by simp]
    show (List.dropWhile pySpace ((c0 :: t0).reverse)).reverse = pyStrip s
    rw [← hne]
    rfl
  show (if listStartsWith ['`', '`', '`']
          (pyStrip ('`' :: '`' :: '`' :: 'j' :: 's' :: 'o' :: 'n' :: '\n' ::
            (s ++ ['\n', '`', '`', '`']))) = true then
          stripTrailingFence (stripLeadingFence
            (pyStrip ('`' :: '`' :: '`' :: 'j' :: 's' :: 'o' :: 'n' :: '\n' ::
              (s ++ ['\n', '`', '`', '`']))))
        else pyStrip ('`' :: '`' :: '`' :: 'j' :: 's' :: 'o' :: 'n' :: '\n' ::
          (s ++ ['\n', '`', '`', '`']))) = pyStrip s
  rw [hstr, if_pos (by rfl), hlead, htrail]

theorem cleanResponse_bare_fence {s : List Char} {c0 : Char} {t0 : List Char}
    (hne : s.dropWhile pySpace = c0 :: t0) :
    cleanResponse (cs "```\n" ++ s ++ cs "\n```") = pyStrip s := by
  show cleanResponse ('`' :: '`' :: '`' :: '\n' :: (s ++ ['\n', '`', '`', '`'])) =
    pyStrip s
  have hstr : pyStrip ('`' :: '`' :: '`' :: '\n' :: (s ++ ['\n', '`', '`', '`'])) =
      '`' :: '`' :: '`' :: '\n' :: (s ++ ['\n', '`', '`', '`']) := by
    have hd : ('`' :: '`' :: '`' :: '\n' ::
        (s ++ ['\n', '`', '`', '`'])).dropWhile pySpace =
        '`' :: '`' :: '`' :: '\n' :: (s ++ ['\n', '`', '`', '`']) :=
      dropWhile_cons_false _ (by decide)
    have hback : '`' :: '`' :: '`' :: '\n' :: (s ++ ['\n', '`', '`', '`']) =
        ('`' :: '`' :: '`' :: '\n' :: (s ++ ['\n', '`', '`'])) ++ ['`'] := by
      simp
    unfold pyStrip
    rw [hd, hback, rstripP_concat_false _ (by decide)]
  have hlead : stripLeadingFence
      ('`' :: '`' :: '`' :: '\n' :: (s ++ ['\n', '`', '`', '`'])) =
      (c0 :: t0) ++ ['\n', '`', '`', '`'] := by
    show List.dropWhile pySpace (s ++ ['\n', '`', '`', '`']) =
      (c0 :: t0) ++ ['\n', '`', '`', '`']
    rw [dropWhile_append_of_ne_nil (by rw [hne]; simp) ['\n', '`', '`', '`'], hne]
  have htrail : stripTrailingFence ((c0 :: t0) ++ ['\n', '`', '`', '`']) = pyStrip s := by
    unfold stripTrailingFence
    rw [show ((c0 :: t0) ++ ['\n', '`', '`', '`']).reverse =
      '`' :: '`' :: '`' :: ('\n' :: (c0 :: t0).reverse) from by simp]
    show (List.dropWhile pySpace ((c0 :: t0).reverse)).reverse = pyStrip s
    rw [← hne]
    rfl
  show (if listStartsWith ['`', '`', '`']
          (pyStrip ('`' :: '`' :: '`' :: '\n' ::
            (s ++ ['\n', '`', '`', '`']))) = true then
          stripTrailingFence (stripLeadingFence
            (pyStrip ('`' :: '`' :: '`' :: '\n' ::
              (s ++ ['\n', '`', '`', '`']))))
        else pyStrip ('`' :: '`' :: '`' :: '\n' ::
          (s ++ ['\n', '`', '`', '`']))) = pyStrip s
  rw [hstr, if_pos (by rfl), hlead, htrail]

theorem cleanResponse_unfenced {s : List Char} {v : Json}
    (h : json_loads (pyStrip s) = some v) : cleanResponse s = pyStrip s := by
  show (if listStartsWith ['`', '`', '`'] (pyStrip s) = true then
          stripTrailingFence (stripLeadingFence (pyStrip s))
        else pyStrip s) = pyStrip s
  rw [json_loads_head_not_backtick h]
  rfl

theorem parse_response_of_clean {t L : List Char} {v : Json}
    (hclean : cleanResponse t = L) (hL : json_loads (pyStrip L) = some v) :
    RecipeGenerator.parse_response t =
      (match checkRequired v requiredFields with
       | .ok _ => Except.ok v
       | .error e => Except.error (cs "Error parsing recipe: " ++ e)) := by
  unfold RecipeGenerator.parse_response
  rw [hclean]
  show (match json_loads (pyStrip L) with
        | none => Except.ok (fallbackRecipe t)
        | some recipe_data =>
          (match checkRequired recipe_data requiredFields with
           | Except.ok _ => Except.ok recipe_data
           | Except.error e => Except.error (cs "Error parsing recipe: " ++ e))) = _
  rw [hL]

theorem strListOf_strJsonList : ∀ l : List (List Char), strListOf (strJsonList l) = some l := by
  intro l
  induction l with
  | nil => rfl
  | cons s t ih => rw [strJsonList, strListOf, ih]; rfl

theorem parseIngredientsField_ingBody (l : List (List Char)) :
    parseIngredientsField (.cons (cs "ingredients") (.arr (strJsonList l)) .nil) =
      if 1 ≤ l.length ∧ l.length ≤ MAX_INGREDIENTS then some l else none := by
  unfold parseIngredientsField
  rw [show lookupPairs (cs "ingredients")
      (.cons (cs "ingredients") (.arr (strJsonList l)) .nil) =
      some (.arr (strJsonList l)) from by unfold lookupPairs; rw [if_pos rfl]]
  show (match strListOf (strJsonList l) with
        | some l2 => if 1 ≤ l2.length ∧ l2.length ≤ MAX_INGREDIENTS then some l2 else none
        | none => none) = _
  rw [strListOf_strJsonList]

theorem toRecipeRequest_ingBody (l : List (List Char)) :
    toRecipeRequest (ingBody l) =
      if 1 ≤ l.length ∧ l.length ≤ MAX_INGREDIENTS then
        some ⟨l, none, some []⟩ else none := by
  have hcui : parseCuisineField (.cons (cs "ingredients") (.arr (strJsonList l)) .nil) =
      some none := by
    unfold parseCuisineField
    rw [show lookupPairs (cs "cuisine_type")
        (.cons (cs "ingredients") (.arr (strJsonList l)) .nil) = none from by
      unfold lookupPairs
      rw [if_neg (by decide)]
      rfl]
  have hres : parseRestrictionsField
      (.cons (cs "ingredients") (.arr (strJsonList l)) .nil) = some (some []) := by
    unfold parseRestrictionsField
    rw [show lookupPairs (cs "dietary_restrictions")
        (.cons (cs "ingredients") (.arr (strJsonList l)) .nil) = none from by
      unfold lookupPairs
      rw [if_neg (by decide)]
      rfl]
  show (match parseIngredientsField (.cons (cs "ingredients") (.arr (strJsonList l)) .nil),
          parseCuisineField (.cons (cs "ingredients") (.arr (strJsonList l)) .nil),
          parseRestrictionsField (.cons (cs "ingredients") (.arr (strJsonList l)) .nil) with
        | some ing, some ct, some dr => some (RecipeRequest.mk ing ct dr)
        | _, _, _ => none) = _
  rw [parseIngredientsField_ingBody, hcui, hres]
  by_cases hb : 1 ≤ l.length ∧ l.length ≤ MAX_INGREDIENTS
  · rw [if_pos hb, if_pos hb]
  · rw [if_neg hb, if_neg hb]

theorem toMultipleRecipesRequest_ingBody (l : List (List Char)) :
    toMultipleRecipesRequest (ingBody l) =
      if 1 ≤ l.length ∧ l.length ≤ MAX_INGREDIENTS then some ⟨l, 3⟩ else none := by
  have hcnt : parseCountField (.cons (cs "ingredients") (.arr (strJsonList l)) .nil) =
      some 3 := by
    unfold parseCountField
    rw [show lookupPairs (cs "count")
        (.cons (cs "ingredients") (.arr (strJsonList l)) .nil) = none from by
      unfold lookupPairs
      rw [if_neg (by decide)]
      rfl]
  show (match parseIngredientsField (.cons (cs "ingredients") (.arr (strJsonList l)) .nil),
          parseCountField (.cons (cs "ingredients") (.arr (strJsonList l)) .nil) with
        | some ing, some c => some (MultipleRecipesRequest.mk ing c)
        | _, _ => none) = _
  rw [parseIngredientsField_ingBody, hcnt]
  by_cases hb : 1 ≤ l.length ∧ l.length ≤ MAX_INGREDIENTS
  · rw [if_pos hb, if_pos hb]
  · rw [if_neg hb, if_neg hb]

/-- Canonical decomposition of the single-recipe prompt. -/
theorem build_prompt_eq (ing : List (List Char)) (ct : Option (List Char))
    (dr : Option (List (List Char))) :
    RecipeGenerator.build_prompt ing ct dr =
      singlePromptPre ++ joinComma ing ++ singlePromptPost ++
        ctClause ct ++ drClause dr ++ onlyJsonClause := by
  rcases ct with _ | c <;> rcases dr with _ | rs
  · simp [RecipeGenerator.build_prompt, ctClause, drClause]
  · by_cases hrs : rs.length > 0 <;>
      simp [RecipeGenerator.build_prompt, ctClause, drClause, hrs, List.append_assoc]
  · by_cases hc : c = [] <;>
      simp [RecipeGenerator.build_prompt, ctClause, drClause, hc, List.append_assoc]
  · by_cases hc : c = [] <;> by_cases hrs : rs.length > 0 <;>
      simp [RecipeGenerator.build_prompt, ctClause, drClause, hc, hrs, List.append_assoc]

/-! ## Claim theorems -/

/-- C1 (counterexample): a multi-recipe response that parses as the JSON
object `\x7b\x7d` — valid JSON with the `recipes` container key absent — does
NOT produce a failure result: `generate_multiple_recipes` silently
fabricates the missing key as an empty list and reports `success=true`. -/
theorem claim_C1_counterexample :
    RecipeGenerator.generate_multiple_recipes [cs "egg"] 3
        (fun _ => .ok (cs "\x7b\x7d")) =
      .obj (.cons (cs "success") (.bool true) (.cons (cs "recipes") (.arr .nil) .nil)) ∧
    resultSuccess (RecipeGenerator.generate_multiple_recipes [cs "egg"] 3
        (fun _ => .ok (cs "\x7b\x7d"))) = true := by
  constructor
  · decide
  · decide

/-- C1 (amended): for the multi-recipe path, when the model response parses
successfully as a JSON object in which the `recipes` container key is
absent, no error is raised: `recipes_data.get("recipes", [])` silently
fabricates the missing field as the empty list and the orchestrator
returns a success dictionary (`success=true`, `recipes=[]`). -/
theorem claim_C1_amended (text : List Char) (ps : JsonPairs)
    (hp : json_loads (pyStrip (cleanResponse text)) = some (.obj ps))
    (hno : lookupPairs (cs "recipes") ps = none) :
    ∀ (ing : List (List Char)) (count : Int) (model : ModelFn),
      model (RecipeGenerator.build_multi_prompt ing count) = .ok text →
      RecipeGenerator.generate_multiple_recipes ing count model =
        .obj (.cons (cs "success") (.bool true) (.cons (cs "recipes") (.arr .nil) .nil)) := by
  intro ing count model hm
  unfold RecipeGenerator.generate_multiple_recipes
  rw [hm]
  show (match json_loads (pyStrip (cleanResponse text)) with
        | none => failureResult jsonDecodeMsg (cs "Failed to generate recipe suggestions")
        | some recipes_data =>
          match pyGet recipes_data (cs "recipes") (.arr .nil) with
          | .ok recipes =>
            Json.obj (.cons (cs "success") (.bool true) (.cons (cs "recipes") recipes .nil))
          | .error e =>
            failureResult e (cs "Failed to generate recipe suggestions")) = _
  rw [hp]
  show Json.obj (.cons (cs "success") (.bool true)
      (.cons (cs "recipes") ((lookupPairs (cs "recipes") ps).getD (Json.arr .nil)) .nil)) = _
  rw [hno]
  rfl

theorem claim_C1_witness :
    json_loads (pyStrip (cleanResponse (cs "\x7b\x7d"))) = some (.obj .nil) ∧
    lookupPairs (cs "recipes") .nil = none ∧
    RecipeGenerator.generate_multiple_recipes [cs "tofu"] 2
        (fun _ => .ok (cs "\x7b\x7d")) =
      .obj (.cons (cs "success") (.bool true) (.cons (cs "recipes") (.arr .nil) .nil)) :=
  ⟨by decide, by decide,
    claim_C1_amended (cs "\x7b\x7d") .nil (by decide) (by decide) [cs "tofu"] 2
      (fun _ => .ok (cs "\x7b\x7d")) rfl⟩

/-- C2: for every response text whose cleaned form is not valid JSON, the
single-recipe parse path returns the fallback recipe
(`recipe_name="Generated Recipe"`, `description` = first 200 characters of
the raw text, empty `ingredients`, `instructions` = the raw text as the
single entry, and the `error` marker field), and the orchestrator reports
it as a success (`success=true`) carrying that fallback. -/
theorem claim_C2 (text : List Char)
    (h : json_loads (pyStrip (cleanResponse text)) = none) :
    RecipeGenerator.parse_response text =
      .ok (.obj (.cons (cs "recipe_name") (.str (cs "Generated Recipe"))
        (.cons (cs "description") (.str (text.take 200))
          (.cons (cs "ingredients") (.arr .nil)
            (.cons (cs "instructions") (.arr (.cons (.str text) .nil))
              (.cons (cs "error")
                (.str (cs "Failed to parse structured recipe")) .nil)))))) ∧
    ∀ (ing : List (List Char)) (ct : Option (List Char))
      (dr : Option (List (List Char))) (model : ModelFn),
      model (RecipeGenerator.build_prompt ing ct dr) = .ok text →
      RecipeGenerator.generate_recipe ing ct dr model =
        .obj (.cons (cs "success") (.bool true)
          (.cons (cs "recipe") (fallbackRecipe text) .nil)) := by
  have hpr : RecipeGenerator.parse_response text = .ok (fallbackRecipe text) := by
    unfold RecipeGenerator.parse_response
    show (match json_loads (pyStrip (cleanResponse text)) with
          | none => Except.ok (fallbackRecipe text)
          | some recipe_data =>
            match checkRequired recipe_data requiredFields with
            | .ok _ => Except.ok recipe_data
            | .error e => Except.error (cs "Error parsing recipe: " ++ e)) =
      Except.ok (fallbackRecipe text)
    rw [h]
  constructor
  · rw [hpr]; rfl
  · intro ing ct dr model hm
    unfold RecipeGenerator.generate_recipe
    rw [hm]
    show (match RecipeGenerator.parse_response text with
          | .ok recipe_data => successSingle recipe_data
          | .error e => failureResult e (cs "Failed to generate recipe")) = _
    rw [hpr]
    rfl

theorem claim_C2_witness :
    json_loads (pyStrip (cleanResponse (cs "hello"))) = none ∧
    (RecipeGenerator.parse_response (cs "hello") =
      .ok (.obj (.cons (cs "recipe_name") (.str (cs "Generated Recipe"))
        (.cons (cs "description") (.str ((cs "hello").take 200))
          (.cons (cs "ingredients") (.arr .nil)
            (.cons (cs "instructions") (.arr (.cons (.str (cs "hello")) .nil))
              (.cons (cs "error")
                (.str (cs "Failed to parse structured recipe")) .nil)))))) ∧
     ∀ (ing : List (List Char)) (ct : Option (List Char))
       (dr : Option (List (List Char))) (model : ModelFn),
       model (RecipeGenerator.build_prompt ing ct dr) = .ok (cs "hello") →
       RecipeGenerator.generate_recipe ing ct dr model =
         .obj (.cons (cs "success") (.bool true)
           (.cons (cs "recipe") (fallbackRecipe (cs "hello")) .nil))) :=
  ⟨by decide, claim_C2 (cs "hello") (by decide)⟩

/-- C3: for every recipe object that contains the required fields
`recipe_name`, `ingredients` and `instructions` (and has no duplicate
keys anywhere), parsing the serialized form returns exactly the original
object: every field, including unexpected extra fields, passes through
unchanged and in order. -/
theorem claim_C3 (ps : JsonPairs) (hwf : wfJson (.obj ps) = true)
    (h1 : keyMem (cs "recipe_name") ps = true)
    (h2 : keyMem (cs "ingredients") ps = true)
    (h3 : keyMem (cs "instructions") ps = true) :
    json_loads (serJson (.obj ps)) = some (.obj ps) ∧
    RecipeGenerator.parse_response (serJson (.obj ps)) = .ok (.obj ps) :=
  ⟨json_loads_ser hwf, parse_response_ser_obj hwf h1 h2 h3⟩

theorem claim_C3_witness :
    wfJson (.obj (.cons (cs "recipe_name") (.str (cs "Cake"))
      (.cons (cs "ingredients") (.arr (.cons (.str (cs "egg")) .nil))
        (.cons (cs "instructions") (.arr (.cons (.str (cs "Mix")) .nil))
          (.cons (cs "extra") (.num 5 0) .nil))))) = true ∧
    keyMem (cs "recipe_name") (.cons (cs "recipe_name") (.str (cs "Cake"))
      (.cons (cs "ingredients") (.arr (.cons (.str (cs "egg")) .nil))
        (.cons (cs "instructions") (.arr (.cons (.str (cs "Mix")) .nil))
          (.cons (cs "extra") (.num 5 0) .nil)))) = true ∧
    RecipeGenerator.parse_response (serJson (.obj
      (.cons (cs "recipe_name") (.str (cs "Cake"))
        (.cons (cs "ingredients") (.arr (.cons (.str (cs "egg")) .nil))
          (.cons (cs "instructions") (.arr (.cons (.str (cs "Mix")) .nil))
            (.cons (cs "extra") (.num 5 0) .nil)))))) =
      .ok (.obj (.cons (cs "recipe_name") (.str (cs "Cake"))
        (.cons (cs "ingredients") (.arr (.cons (.str (cs "egg")) .nil))
          (.cons (cs "instructions") (.arr (.cons (.str (cs "Mix")) .nil))
            (.cons (cs "extra") (.num 5 0) .nil))))) :=
  ⟨by decide, by decide,
    (claim_C3 (.cons (cs "recipe_name") (.str (cs "Cake"))
      (.cons (cs "ingredients") (.arr (.cons (.str (cs "egg")) .nil))
        (.cons (cs "instructions") (.arr (.cons (.str (cs "Mix")) .nil))
          (.cons (cs "extra") (.num 5 0) .nil))))
      (by decide) (by decide) (by decide) (by decide)).2⟩

/-- C4: wrapping a JSON text in a leading ```json (or bare ```) fence line
and a trailing ``` fence line changes nothing: the parser strips exactly
those fence lines and yields the same result as on the unfenced text
(whose own embedded backticks, were there any, would be untouched — the
stripping is by pattern match on the ends, not by fence-pair search). -/
theorem claim_C4 (s : List Char) (v : Json)
    (h : json_loads (pyStrip s) = some v) :
    RecipeGenerator.parse_response (cs "```json\n" ++ s ++ cs "\n```") =
      RecipeGenerator.parse_response s ∧
    RecipeGenerator.parse_response (cs "```\n" ++ s ++ cs "\n```") =
      RecipeGenerator.parse_response s := by
  obtain ⟨c0, t0, hne⟩ := pyStrip_some_shape h
  have hL : json_loads (pyStrip (pyStrip s)) = some v := by rw [pyStrip_idem]; exact h
  have hbase := parse_response_of_clean (cleanResponse_unfenced h) hL
  constructor
  · rw [parse_response_of_clean (cleanResponse_json_fence hne) hL, hbase]
  · rw [parse_response_of_clean (cleanResponse_bare_fence hne) hL, hbase]

theorem claim_C4_witness :
    json_loads (pyStrip (cs "\x7b\"recipe_name\": \"x\"\x7d")) =
      some (.obj (.cons (cs "recipe_name") (.str (cs "x")) .nil)) ∧
    (RecipeGenerator.parse_response
        (cs "```json\n" ++ cs "\x7b\"recipe_name\": \"x\"\x7d" ++ cs "\n```") =
      RecipeGenerator.parse_response (cs "\x7b\"recipe_name\": \"x\"\x7d") ∧
     RecipeGenerator.parse_response
        (cs "```\n" ++ cs "\x7b\"recipe_name\": \"x\"\x7d" ++ cs "\n```") =
      RecipeGenerator.parse_response (cs "\x7b\"recipe_name\": \"x\"\x7d")) :=
  ⟨by decide, claim_C4 (cs "\x7b\"recipe_name\": \"x\"\x7d")
    (.obj (.cons (cs "recipe_name") (.str (cs "x")) .nil)) (by decide)⟩

theorem checkRequired_obj_missing {ps : JsonPairs}
    (hmiss : keyMem (cs "recipe_name") ps = false ∨
      keyMem (cs "ingredients") ps = false ∨
      keyMem (cs "instructions") ps = false) :
    ∃ f, f ∈ requiredFields ∧ keyMem f ps = false ∧
      checkRequired (.obj ps) requiredFields =
        .error (cs "Missing required field: " ++ f) := by
  by_cases h1 : keyMem (cs "recipe_name") ps = true
  · by_cases h2 : keyMem (cs "ingredients") ps = true
    · by_cases h3 : keyMem (cs "instructions") ps = true
      · exfalso
        rcases hmiss with h | h | h
        · rw [h1] at h; exact absurd h (by decide)
        · rw [h2] at h; exact absurd h (by decide)
        · rw [h3] at h; exact absurd h (by decide)
      · have h3f : keyMem (cs "instructions") ps = false := by
          revert h3; cases keyMem (cs "instructions") ps <;> simp
        refine ⟨cs "instructions", by decide, h3f, ?_⟩
        have e1 : pyIn (cs "recipe_name") (.obj ps) = .ok true := by rw [pyIn_obj, h1]
        have e2 : pyIn (cs "ingredients") (.obj ps) = .ok true := by rw [pyIn_obj, h2]
        have e3 : pyIn (cs "instructions") (.obj ps) = .ok false := by rw [pyIn_obj, h3f]
        show checkRequired (.obj ps)
          [cs "recipe_name", cs "ingredients", cs "instructions"] = _
        simp only [checkRequired, e1, e2, e3]
    · have h2f : keyMem (cs "ingredients") ps = false := by
        revert h2; cases keyMem (cs "ingredients") ps <;> simp
      refine ⟨cs "ingredients", by decide, h2f, ?_⟩
      have e1 : pyIn (cs "recipe_name") (.obj ps) = .ok true := by rw [pyIn_obj, h1]
      have e2 : pyIn (cs "ingredients") (.obj ps) = .ok false := by rw [pyIn_obj, h2f]
      show checkRequired (.obj ps)
        [cs "recipe_name", cs "ingredients", cs "instructions"] = _
      simp only [checkRequired, e1, e2]
  · have h1f : keyMem (cs "recipe_name") ps = false := by
      revert h1; cases keyMem (cs "recipe_name") ps <;> simp
    refine ⟨cs "recipe_name", by decide, h1f, ?_⟩
    have e1 : pyIn (cs "recipe_name") (.obj ps) = .ok false := by rw [pyIn_obj, h1f]
    show checkRequired (.obj ps)
      [cs "recipe_name", cs "ingredients", cs "instructions"] = _
    simp only [checkRequired, e1]

/-- C5: for every response text that parses as a JSON object lacking one
of the required fields `recipe_name`, `ingredients` or `instructions`, the
parser raises the missing-required-field error (re-raised with the
`Error parsing recipe:` prefix) instead of fabricating the field, and the
orchestrator converts it into a failure result with `success=false`. -/
theorem claim_C5 (text : List Char) (ps : JsonPairs)
    (hp : json_loads (pyStrip (cleanResponse text)) = some (.obj ps))
    (hmiss : keyMem (cs "recipe_name") ps = false ∨
      keyMem (cs "ingredients") ps = false ∨
      keyMem (cs "instructions") ps = false) :
    ∃ f, f ∈ requiredFields ∧ keyMem f ps = false ∧
      RecipeGenerator.parse_response text =
        .error (cs "Error parsing recipe: Missing required field: " ++ f) ∧
      ∀ (ing : List (List Char)) (ct : Option (List Char))
        (dr : Option (List (List Char))) (model : ModelFn),
        model (RecipeGenerator.build_prompt ing ct dr) = .ok text →
        RecipeGenerator.generate_recipe ing ct dr model =
          failureResult (cs "Error parsing recipe: Missing required field: " ++ f)
            (cs "Failed to generate recipe") ∧
        resultSuccess (RecipeGenerator.generate_recipe ing ct dr model) = false := by
  obtain ⟨f, hf, hkm, hcr⟩ := checkRequired_obj_missing hmiss
  have hpr : RecipeGenerator.parse_response text =
      .error (cs "Error parsing recipe: Missing required field: " ++ f) := by
    rw [parse_response_of_clean rfl hp, hcr]
    show Except.error (cs "Error parsing recipe: " ++ (cs "Missing required field: " ++ f)) = _
    rw [← List.append_assoc]
    rw [show cs "Error parsing recipe: " ++ cs "Missing required field: " =
      cs "Error parsing recipe: Missing required field: " from by decide]
  refine ⟨f, hf, hkm, hpr, ?_⟩
  intro ing ct dr model hm
  have hg : RecipeGenerator.generate_recipe ing ct dr model =
      failureResult (cs "Error parsing recipe: Missing required field: " ++ f)
        (cs "Failed to generate recipe") := by
    unfold RecipeGenerator.generate_recipe
    rw [hm]
    show (match RecipeGenerator.parse_response text with
          | .ok recipe_data => successSingle recipe_data
          | .error e => failureResult e (cs "Failed to generate recipe")) = _
    rw [hpr]
  refine ⟨hg, ?_⟩
  rw [hg]
  rfl

theorem claim_C5_witness :
    json_loads (pyStrip (cleanResponse
        (cs "\x7b\"recipe_name\": \"x\", \"ingredients\": []\x7d"))) =
      some (.obj (.cons (cs "recipe_name") (.str (cs "x"))
        (.cons (cs "ingredients") (.arr .nil) .nil))) ∧
    keyMem (cs "instructions") (.cons (cs "recipe_name") (.str (cs "x"))
      (.cons (cs "ingredients") (.arr .nil) .nil)) = false ∧
    (∃ f, f ∈ requiredFields ∧
      keyMem f (.cons (cs "recipe_name") (.str (cs "x"))
        (.cons (cs "ingredients") (.arr .nil) .nil)) = false ∧
      RecipeGenerator.parse_response
          (cs "\x7b\"recipe_name\": \"x\", \"ingredients\": []\x7d") =
        .error (cs "Error parsing recipe: Missing required field: " ++ f) ∧
      ∀ (ing : List (List Char)) (ct : Option (List Char))
        (dr : Option (List (List Char))) (model : ModelFn),
        model (RecipeGenerator.build_prompt ing ct dr) =
          .ok (cs "\x7b\"recipe_name\": \"x\", \"ingredients\": []\x7d") →
        RecipeGenerator.generate_recipe ing ct dr model =
          failureResult (cs "Error parsing recipe: Missing required field: " ++ f)
            (cs "Failed to generate recipe") ∧
        resultSuccess (RecipeGenerator.generate_recipe ing ct dr model) = false) :=
  ⟨by decide, by decide,
    claim_C5 (cs "\x7b\"recipe_name\": \"x\", \"ingredients\": []\x7d")
      (.cons (cs "recipe_name") (.str (cs "x"))
        (.cons (cs "ingredients") (.arr .nil) .nil))
      (by decide) (Or.inr (Or.inr (by decide)))⟩

/-- C6: the orchestrators never propagate an exception: every run of
`generate_recipe` and of `generate_multiple_recipes` produces either a
success dictionary or the failure dictionary with its fixed message; in
particular an exception raised by the external call surfaces exactly as
`\x7bsuccess: false, error: the stringified exception, message: the fixed
string\x7d`. -/
theorem claim_C6 (ing : List (List Char)) (ct : Option (List Char))
    (dr : Option (List (List Char))) (count : Int) (model : ModelFn) :
    ((∃ recipe, RecipeGenerator.generate_recipe ing ct dr model =
        successSingle recipe) ∨
      (∃ e, RecipeGenerator.generate_recipe ing ct dr model =
        failureResult e (cs "Failed to generate recipe"))) ∧
    ((∃ rs, RecipeGenerator.generate_multiple_recipes ing count model =
        .obj (.cons (cs "success") (.bool true) (.cons (cs "recipes") rs .nil))) ∨
      (∃ e, RecipeGenerator.generate_multiple_recipes ing count model =
        failureResult e (cs "Failed to generate recipe suggestions"))) ∧
    (∀ e, model (RecipeGenerator.build_prompt ing ct dr) = .error e →
      RecipeGenerator.generate_recipe ing ct dr model =
        failureResult e (cs "Failed to generate recipe")) ∧
    (∀ e, model (RecipeGenerator.build_multi_prompt ing count) = .error e →
      RecipeGenerator.generate_multiple_recipes ing count model =
        failureResult e (cs "Failed to generate recipe suggestions")) := by
  refine ⟨?_, ?_, ?_, ?_⟩
  · rcases hm : model (RecipeGenerator.build_prompt ing ct dr) with e | text
    · refine Or.inr ⟨e, ?_⟩
      unfold RecipeGenerator.generate_recipe
      rw [hm]
    · rcases hpr : RecipeGenerator.parse_response text with e | r
      · refine Or.inr ⟨e, ?_⟩
        unfold RecipeGenerator.generate_recipe
        rw [hm]
        show (match RecipeGenerator.parse_response text with
              | .ok recipe_data => successSingle recipe_data
              | .error e2 => failureResult e2 (cs "Failed to generate recipe")) = _
        rw [hpr]
      · refine Or.inl ⟨r, ?_⟩
        unfold RecipeGenerator.generate_recipe
        rw [hm]
        show (match RecipeGenerator.parse_response text with
              | .ok recipe_data => successSingle recipe_data
              | .error e2 => failureResult e2 (cs "Failed to generate recipe")) = _
        rw [hpr]
  · rcases hm : model (RecipeGenerator.build_multi_prompt ing count) with e | text
    · refine Or.inr ⟨e, ?_⟩
      unfold RecipeGenerator.generate_multiple_recipes
      rw [hm]
    · rcases hj : json_loads (pyStrip (cleanResponse text)) with _ | v
      · refine Or.inr ⟨jsonDecodeMsg, ?_⟩
        unfold RecipeGenerator.generate_multiple_recipes
        rw [hm]
        show (match json_loads (pyStrip (cleanResponse text)) with
              | none =>
                failureResult jsonDecodeMsg (cs "Failed to generate recipe suggestions")
              | some recipes_data =>
                match pyGet recipes_data (cs "recipes") (.arr .nil) with
                | .ok recipes =>
                  Json.obj (.cons (cs "success") (.bool true)
                    (.cons (cs "recipes") recipes .nil))
                | .error e2 =>
                  failureResult e2 (cs "Failed to generate recipe suggestions")) = _
        rw [hj]
      · rcases hg : pyGet v (cs "recipes") (.arr .nil) with e | recipes
        · refine Or.inr ⟨e, ?_⟩
          unfold RecipeGenerator.generate_multiple_recipes
          rw [hm]
          show (match json_loads (pyStrip (cleanResponse text)) with
                | none =>
                  failureResult jsonDecodeMsg (cs "Failed to generate recipe suggestions")
                | some recipes_data =>
                  match pyGet recipes_data (cs "recipes") (.arr .nil) with
                  | .ok recipes =>
                    Json.obj (.cons (cs "success") (.bool true)
                      (.cons (cs "recipes") recipes .nil))
                  | .error e2 =>
                    failureResult e2 (cs "Failed to generate recipe suggestions")) = _
          rw [hj]
          show (match pyGet v (cs "recipes") (.arr .nil) with
                | .ok recipes =>
                  Json.obj (.cons (cs "success") (.bool true)
                    (.cons (cs "recipes") recipes .nil))
                | .error e2 =>
                  failureResult e2 (cs "Failed to generate recipe suggestions")) = _
          rw [hg]
        · refine Or.inl ⟨recipes, ?_⟩
          unfold RecipeGenerator.generate_multiple_recipes
          rw [hm]
          show (match json_loads (pyStrip (cleanResponse text)) with
                | none =>
                  failureResult jsonDecodeMsg (cs "Failed to generate recipe suggestions")
                | some recipes_data =>
                  match pyGet recipes_data (cs "recipes") (.arr .nil) with
                  | .ok recipes2 =>
                    Json.obj (.cons (cs "success") (.bool true)
                      (.cons (cs "recipes") recipes2 .nil))
                  | .error e2 =>
                    failureResult e2 (cs "Failed to generate recipe suggestions")) = _
          rw [hj]
          show (match pyGet v (cs "recipes") (.arr .nil) with
                | .ok recipes2 =>
                  Json.obj (.cons (cs "success") (.bool true)
                    (.cons (cs "recipes") recipes2 .nil))
                | .error e2 =>
                  failureResult e2 (cs "Failed to generate recipe suggestions")) = _
          rw [hg]
  · intro e hm
    unfold RecipeGenerator.generate_recipe
    rw [hm]
  · intro e hm
    unfold RecipeGenerator.generate_multiple_recipes
    rw [hm]

theorem claim_C6_witness :
    ((fun _ => .error (cs "quota")) (RecipeGenerator.build_prompt [cs "egg"] none none)
        : Except (List Char) (List Char)) = .error (cs "quota") ∧
    RecipeGenerator.generate_recipe [cs "egg"] none none
        (fun _ => .error (cs "quota")) =
      failureResult (cs "quota") (cs "Failed to generate recipe") ∧
    RecipeGenerator.generate_multiple_recipes [cs "egg"] 3
        (fun _ => .error (cs "quota")) =
      failureResult (cs "quota") (cs "Failed to generate recipe suggestions") :=
  ⟨rfl,
    (claim_C6 [cs "egg"] none none 3 (fun _ => .error (cs "quota"))).2.2.1
      (cs "quota") rfl,
    (claim_C6 [cs "egg"] none none 3 (fun _ => .error (cs "quota"))).2.2.2
      (cs "quota") rfl⟩

/-- C7: request validation accepts a well-typed ingredients list exactly
when its length lies in `[1, MAX_INGREDIENTS]` (default 20), answering 400
with the structured validation body otherwise; `/suggest_recipes` bounds
`count` to `[1,5]` with default 3, so a request with `count = 7` is
rejected with 400 — before the external model is ever invoked, as the
response does not depend on the model. -/
theorem claim_C7 (l : List (List Char)) (model : ModelFn) :
    ((toRecipeRequest (ingBody l)).isSome ↔
      1 ≤ l.length ∧ l.length ≤ MAX_INGREDIENTS) ∧
    toMultipleRecipesRequest (ingBody l) =
      (if 1 ≤ l.length ∧ l.length ≤ MAX_INGREDIENTS then some ⟨l, 3⟩ else none) ∧
    (¬(1 ≤ l.length ∧ l.length ≤ MAX_INGREDIENTS) →
      App.generate_recipe (some (ingBody l)) model = ⟨400, validationErrorBody⟩ ∧
      App.suggest_recipes (some (ingBody l)) model = ⟨400, validationErrorBody⟩) ∧
    App.suggest_recipes (some count7Body) model = ⟨400, validationErrorBody⟩ := by
  refine ⟨?_, toMultipleRecipesRequest_ingBody l, ?_, ?_⟩
  · rw [toRecipeRequest_ingBody]
    by_cases hb : 1 ≤ l.length ∧ l.length ≤ MAX_INGREDIENTS
    · rw [if_pos hb]
      simp [hb]
    · rw [if_neg hb]
      simp [hb]
  · intro hb
    constructor
    · show (match toRecipeRequest (ingBody l) with
            | none => HttpResponse.mk 400 validationErrorBody
            | some req =>
              wrapResult (RecipeGenerator.generate_recipe
                req.ingredients req.cuisine_type req.dietary_restrictions model)) = _
      rw [toRecipeRequest_ingBody, if_neg hb]
    · show (match toMultipleRecipesRequest (ingBody l) with
            | none => HttpResponse.mk 400 validationErrorBody
            | some req =>
              wrapResult (RecipeGenerator.generate_multiple_recipes
                req.ingredients req.count model)) = _
      rw [toMultipleRecipesRequest_ingBody, if_neg hb]
  · rfl

theorem claim_C7_witness :
    ¬(1 ≤ ([] : List (List Char)).length ∧
        ([] : List (List Char)).length ≤ MAX_INGREDIENTS) ∧
    ((toRecipeRequest (ingBody ([] : List (List Char)))).isSome ↔
      1 ≤ ([] : List (List Char)).length ∧
        ([] : List (List Char)).length ≤ MAX_INGREDIENTS) ∧
    App.generate_recipe (some (ingBody ([] : List (List Char))))
        (fun p => .ok p) = ⟨400, validationErrorBody⟩ ∧
    App.suggest_recipes (some count7Body) (fun p => .ok p) =
      ⟨400, validationErrorBody⟩ :=
  ⟨by decide,
    (claim_C7 [] (fun p => .ok p)).1,
    ((claim_C7 [] (fun p => .ok p)).2.2.1 (by decide)).1,
    (claim_C7 [] (fun p => .ok p)).2.2.2⟩

/-- C8: the single-recipe prompt decomposes as the base text (with the
comma+space joined ingredient list), then the style-preference clause
exactly when `cuisine_type` is present and non-empty, then the
dietary-restrictions clause (joining the restrictions with comma+space)
exactly when the list is present and non-empty, and it always terminates
with the instruction to return ONLY the JSON response with no additional
text or markdown formatting. -/
theorem claim_C8 (ing : List (List Char)) (ct : Option (List Char))
    (dr : Option (List (List Char))) :
    RecipeGenerator.build_prompt ing ct dr =
      singlePromptPre ++ joinComma ing ++ singlePromptPost ++
        ctClause ct ++ drClause dr ++ onlyJsonClause ∧
    onlyJsonClause <:+ RecipeGenerator.build_prompt ing ct dr ∧
    (∀ c, ct = some c → c ≠ [] →
      ∃ pre post, RecipeGenerator.build_prompt ing ct dr =
        pre ++ cuisineClause c ++ post) ∧
    (∀ rs, dr = some rs → rs ≠ [] →
      ∃ pre, RecipeGenerator.build_prompt ing ct dr =
        pre ++ restrictionsClause rs ++ onlyJsonClause) := by
  refine ⟨build_prompt_eq ing ct dr, ?_, ?_, ?_⟩
  · rw [build_prompt_eq]
    exact List.suffix_append _ _
  · intro c hct hc
    subst hct
    have heq := build_prompt_eq ing (some c) dr
    rw [show ctClause (some c) = if c = [] then [] else cuisineClause c from rfl,
      if_neg hc] at heq
    refine ⟨singlePromptPre ++ joinComma ing ++ singlePromptPost,
      drClause dr ++ onlyJsonClause, ?_⟩
    rw [heq]
    simp only [List.append_assoc]
  · intro rs hdr hrs
    subst hdr
    have heq := build_prompt_eq ing ct (some rs)
    have hlen : rs.length > 0 := by
      cases rs with
      | nil => exact absurd rfl hrs
      | cons a t => simp
    rw [show drClause (some rs) = if rs.length > 0 then restrictionsClause rs else []
      from rfl, if_pos hlen] at heq
    exact ⟨singlePromptPre ++ joinComma ing ++ singlePromptPost ++ ctClause ct, heq⟩

theorem claim_C8_witness :
    (some (cs "Thai") : Option (List Char)) = some (cs "Thai") ∧
    cs "Thai" ≠ [] ∧ ([cs "vegan"] : List (List Char)) ≠ [] ∧
    (∃ pre post,
      RecipeGenerator.build_prompt [cs "egg"] (some (cs "Thai")) (some [cs "vegan"]) =
        pre ++ cuisineClause (cs "Thai") ++ post) ∧
    (∃ pre,
      RecipeGenerator.build_prompt [cs "egg"] (some (cs "Thai")) (some [cs "vegan"]) =
        pre ++ restrictionsClause [cs "vegan"] ++ onlyJsonClause) := by
  obtain ⟨h1, h2, h3, h4⟩ := claim_C8 [cs "egg"] (some (cs "Thai")) (some [cs "vegan"])
  exact ⟨rfl, by decide, by decide, h3 _ rfl (by decide), h4 _ rfl (by decide)⟩

/-- C9: a POST to `/generate_recipe` with no request body is answered with
HTTP 400 and the body `\x7bsuccess: false, error: "No data provided"\x7d`,
whatever the external model is. -/
theorem claim_C9 (model : ModelFn) :
    App.generate_recipe none model =
      ⟨400, .obj (.cons (cs "success") (.bool false)
        (.cons (cs "error") (.str (cs "No data provided")) .nil))⟩ := rfl

/-- C10: validation places no non-emptiness requirement on the individual
ingredient strings: a list within the length bounds is accepted even when
it contains the empty string, the request reaches the generator unchanged,
and the empty strings flow verbatim into the comma+space ingredient join
of the prompt. -/
theorem claim_C10 (l : List (List Char)) (model : ModelFn)
    (_hmem : [] ∈ l) (h1 : 1 ≤ l.length) (h2 : l.length ≤ MAX_INGREDIENTS) :
    toRecipeRequest (ingBody l) = some ⟨l, none, some []⟩ ∧
    App.generate_recipe (some (ingBody l)) model =
      wrapResult (RecipeGenerator.generate_recipe l none (some []) model) ∧
    RecipeGenerator.build_prompt l none (some []) =
      singlePromptPre ++ joinComma l ++ singlePromptPost ++ onlyJsonClause := by
  have hreq : toRecipeRequest (ingBody l) = some ⟨l, none, some []⟩ := by
    rw [toRecipeRequest_ingBody, if_pos ⟨h1, h2⟩]
  refine ⟨hreq, ?_, ?_⟩
  · show (match toRecipeRequest (ingBody l) with
          | none => HttpResponse.mk 400 validationErrorBody
          | some req =>
            wrapResult (RecipeGenerator.generate_recipe
              req.ingredients req.cuisine_type req.dietary_restrictions model)) = _
    rw [hreq]
  · have heq := build_prompt_eq l none (some ([] : List (List Char)))
    simpa [ctClause, drClause] using heq

theorem claim_C10_witness :
    ([] ∈ ([[], cs "egg"] : List (List Char))) ∧
    1 ≤ ([[], cs "egg"] : List (List Char)).length ∧
    ([[], cs "egg"] : List (List Char)).length ≤ MAX_INGREDIENTS ∧
    (toRecipeRequest (ingBody [[], cs "egg"]) = some ⟨[[], cs "egg"], none, some []⟩ ∧
     App.generate_recipe (some (ingBody [[], cs "egg"])) (fun p => .ok p) =
       wrapResult (RecipeGenerator.generate_recipe [[], cs "egg"] none (some [])
         (fun p => .ok p)) ∧
     RecipeGenerator.build_prompt [[], cs "egg"] none (some []) =
       singlePromptPre ++ joinComma [[], cs "egg"] ++ singlePromptPost ++
         onlyJsonClause) :=
  ⟨by decide, by decide, by decide,
    claim_C10 [[], cs "egg"] (fun p => .ok p) (by decide) (by decide) (by decide)⟩
